import Mathlib

/-!
# Carla native engine: a shallow embedding of `CarlaEngineNative.cpp`

The definitions below follow `source/backend/engine/CarlaEngineNative.cpp`:
the out-of-process UI server (`CarlaEngineNativeUI`) and the plugin-facing
engine (`CarlaEngineNative`) with its real-time `process()` callback, its UI
calls and the saving and loading of the plugin chain.  A second part, in the
namespace `DISTRHO`, follows `source/libs/distrho/dgl/src/Window.cpp`: the
visibility of a window of the DGL toolkit.

Conventions
* machine integers are `Nat`/`Int`; a narrowing cast is an explicit `% 2^w`;
* pointers are `Option` (`none` is `nullptr`);
* mutable members become fields of a state structure that every method
  takes and returns;
* calls into code that lives outside `CarlaEngineNative.cpp` (host callbacks,
  base-class helpers) are either parameters or recorded in a trace.
-/

namespace CarlaBackend

/-! ## The UI server -/

/-- The enum `CarlaEngineNativeUI::UiState`. -/
inductive UiState where
  | UiNone
  | UiHide
  | UiShow
  | UiCrashed
  deriving DecidableEq, Repr, Inhabited

/-- Modelled from the spec: the base class `CarlaPipeServer` (declared in
`CarlaPipeUtils.hpp`).  The spec gives it a child-process handle and a
bidirectional line-based byte stream: `child`
is the launched process with its three launch arguments (`none` when there is
no child), `written` the messages sent to the child, oldest first, and
`pending` the lines the child has sent that were not read yet. -/
structure CarlaPipeServer where
  child : Option (String × String × String) := none
  written : List String := []
  pending : List String := []
  deriving DecidableEq, Repr

/-- Modelled from the spec: `CarlaPipeServer::start`, "launch child process
with {executable path, sample-rate (as decimal text), window title}". -/
def CarlaPipeServer.start (p : CarlaPipeServer) (filename arg1 arg2 : String) :
    CarlaPipeServer :=
  { p with child := some (filename, arg1, arg2) }

/-- Modelled from the spec: `CarlaPipeServer::writeMsg`, which appends one
message to the stream towards the child. -/
def CarlaPipeServer.writeMsg (p : CarlaPipeServer) (msg : String) : CarlaPipeServer :=
  { p with written := p.written ++ [msg] }

/-- Modelled from the spec: `CarlaPipeServer::waitChildClose`, "reap the
child": afterwards the server owns no child process. -/
def CarlaPipeServer.waitChildClose (p : CarlaPipeServer) : CarlaPipeServer :=
  { p with child := none }

/-- Modelled from the spec: reading one line of the inbound stream; `none`
when no line is available. -/
def CarlaPipeServer.readline (p : CarlaPipeServer) : Option String × CarlaPipeServer :=
  match p.pending with
  | [] => (none, p)
  | l :: ls => (some l, { p with pending := ls })

/-- Value of a decimal digit character, `none` for any other character. -/
def digitValue (c : Char) : Option Nat :=
  if 48 ≤ c.toNat ∧ c.toNat ≤ 57 then some (c.toNat - 48) else none

/-- Reads a non-empty run of decimal digits, most significant first. -/
def parseDigits : List Char → Option Nat → Option Nat
  | [], acc => acc
  | c :: cs, acc =>
    match digitValue c with
    | none => none
    | some d => parseDigits cs (some (acc.getD 0 * 10 + d))

/-- Reads "decimal ASCII" text as an integer, with an optional leading minus. -/
def parseInt (s : String) : Option Int :=
  match s.data with
  | '-' :: cs => (parseDigits cs none).map fun n => - (n : Int)
  | cs => (parseDigits cs none).map fun n => (n : Int)

/-- Modelled from the spec: `CarlaPipeServer::readNextLineAsInt`; an argument
line is an "integer (decimal ASCII)", and a missing or malformed line makes
the read fail. -/
def CarlaPipeServer.readNextLineAsInt (p : CarlaPipeServer) : Option Int × CarlaPipeServer :=
  match p.readline with
  | (some l, q) => (parseInt l, q)
  | (none, q) => (none, q)

/-- Modelled from the spec: `CarlaPipeServer::readNextLineAsBool`; a boolean
is one of "two distinct literal tokens". -/
def CarlaPipeServer.readNextLineAsBool (p : CarlaPipeServer) : Option Bool × CarlaPipeServer :=
  match p.readline with
  | (some l, q) => (if l = "true" then some true else if l = "false" then some false else none, q)
  | (none, q) => (none, q)

/-- Modelled from the spec: `CarlaPipeServer::readNextLineAsString`; any
available line is a string argument. -/
def CarlaPipeServer.readNextLineAsString (p : CarlaPipeServer) :
    Option String × CarlaPipeServer :=
  p.readline

/-- The calls `msgReceived` makes on the engine (`fEngine->...`), recorded in
the order they are made. -/
inductive EngineCall where
  | setOption (option value : Int) (valueStr : String)
  | addPlugin (btype ptype : Int) (filename name label : String)
  | setActive (pluginId : Int) (onOff : Bool)
  deriving DecidableEq, Repr

/-- The class `CarlaEngineNativeUI`: the pipe server it derives from and its
own members.  `fSampleRate` is the sample rate already turned into text. -/
structure CarlaEngineNativeUI where
  pipe : CarlaPipeServer := {}
  fFilename : String := ""
  fSampleRate : String := ""
  fUiTitle : String := ""
  fUiState : UiState := UiState.UiNone
  deriving DecidableEq, Repr

/-- The method `CarlaEngineNativeUI::setData`. -/
def CarlaEngineNativeUI.setData (ui : CarlaEngineNativeUI)
    (filename sampleRate uiTitle : String) : CarlaEngineNativeUI :=
  { ui with fFilename := filename, fSampleRate := sampleRate, fUiTitle := uiTitle }

/-- The method `CarlaEngineNativeUI::getAndResetUiState`: returns the stored
state and stores `UiNone`. -/
def CarlaEngineNativeUI.getAndResetUiState (ui : CarlaEngineNativeUI) :
    UiState × CarlaEngineNativeUI :=
  let uiState := ui.fUiState
  (uiState, { ui with fUiState := UiState.UiNone })

/-- The method `CarlaEngineNativeUI::start`: starts the pipe server with the
stored data, then writes the `show` message. -/
def CarlaEngineNativeUI.start (ui : CarlaEngineNativeUI) : CarlaEngineNativeUI :=
  let pipe := ui.pipe.start ui.fFilename ui.fSampleRate ui.fUiTitle
  { ui with pipe := pipe.writeMsg "show\n" }

/-- The method `CarlaEngineNativeUI::msgReceived`.  `hasPlugin id` tells
whether `fEngine->getPlugin(id)` is non-null.  The result is the new UI
object and the engine calls made.  A failed `CARLA_SAFE_ASSERT_RETURN` leaves
the method at once; the lines read so far stay consumed. -/
def CarlaEngineNativeUI.msgReceived (hasPlugin : Int → Bool) (ui : CarlaEngineNativeUI)
    (msg : String) : CarlaEngineNativeUI × List EngineCall :=
  if msg = "exiting" then
    ({ ui with pipe := ui.pipe.waitChildClose, fUiState := UiState.UiHide }, [])
  else if msg = "set_engine_option" then
    match ui.pipe.readNextLineAsInt with
    | (none, p1) => ({ ui with pipe := p1 }, [])
    | (some option, p1) =>
      match p1.readNextLineAsInt with
      | (none, p2) => ({ ui with pipe := p2 }, [])
      | (some value, p2) =>
        match p2.readNextLineAsString with
        | (none, p3) => ({ ui with pipe := p3 }, [])
        | (some valueStr, p3) =>
          ({ ui with pipe := p3 }, [EngineCall.setOption option value valueStr])
  else if msg = "add_plugin" then
    match ui.pipe.readNextLineAsInt with
    | (none, p1) => ({ ui with pipe := p1 }, [])
    | (some btype, p1) =>
      match p1.readNextLineAsInt with
      | (none, p2) => ({ ui with pipe := p2 }, [])
      | (some ptype, p2) =>
        match p2.readNextLineAsString with
        | (none, p3) => ({ ui with pipe := p3 }, [])
        | (some filename, p3) =>
          match p3.readNextLineAsString with
          | (none, p4) => ({ ui with pipe := p4 }, [])
          | (some name, p4) =>
            match p4.readNextLineAsString with
            | (none, p5) => ({ ui with pipe := p5 }, [])
            | (some label, p5) =>
              ({ ui with pipe := p5 }, [EngineCall.addPlugin btype ptype filename name label])
  else if msg = "set_active" then
    match ui.pipe.readNextLineAsInt with
    | (none, p1) => ({ ui with pipe := p1 }, [])
    | (some pluginId, p1) =>
      match p1.readNextLineAsBool with
      | (none, p2) => ({ ui with pipe := p2 }, [])
      | (some onOff, p2) =>
        if hasPlugin pluginId then
          ({ ui with pipe := p2 }, [EngineCall.setActive pluginId onOff])
        else
          ({ ui with pipe := p2 }, [])
  else
    (ui, [])

/-! ## Events -/

/-- A sample or other floating-point value, kept as its raw bit pattern: the
code below only ever copies such values. -/
abbrev FloatBits := Nat

/-- An audio channel buffer (`float*`): the sample found at each frame
offset.  Distinct buffers are distinct memory regions. -/
abbrev AudioBuffer := Nat → FloatBits

/-- The four inline data bytes of a MIDI event (`uint8_t data[4]`). -/
structure MidiData where
  b0 : Nat := 0
  b1 : Nat := 0
  b2 : Nat := 0
  b3 : Nat := 0
  deriving DecidableEq, Repr

/-- Array read `data[j]`; only indices 0..3 exist. -/
def MidiData.get (d : MidiData) (j : Nat) : Nat :=
  match j with
  | 0 => d.b0
  | 1 => d.b1
  | 2 => d.b2
  | 3 => d.b3
  | _ => 0

/-- Array write `data[j] = v`; only indices 0..3 exist. -/
def MidiData.set (d : MidiData) (j : Nat) (v : Nat) : MidiData :=
  match j with
  | 0 => { d with b0 := v }
  | 1 => { d with b1 := v }
  | 2 => { d with b2 := v }
  | 3 => { d with b3 := v }
  | _ => d

/-- The host-side MIDI event `NativeMidiEvent` (declared in `CarlaNative.h`):
`time` is a `uint32_t`, `port` and `size` are `uint8_t`. -/
structure NativeMidiEvent where
  time : Nat := 0
  port : Nat := 0
  size : Nat := 0
  data : MidiData := {}
  deriving DecidableEq, Repr

/-- The payload `EngineControlEvent` (declared in `CarlaEngine.hpp`): control
type, parameter index and value; the value is a `float`. -/
structure EngineControlEvent where
  type : Nat := 0
  param : Nat := 0
  value : FloatBits := 0
  deriving DecidableEq, Repr

/-- The payload `EngineMidiEvent` (declared in `CarlaEngine.hpp`): `dataExt`
is the pointer to out-of-line data, `none` when null. -/
structure EngineMidiEvent where
  port : Nat := 0
  size : Nat := 0
  data : MidiData := {}
  dataExt : Option (List Nat) := none
  deriving DecidableEq, Repr

/-- Modelled from the spec: the enum value `kEngineEventTypeNull` (declared in
`CarlaEngine.hpp`); it is the value a zeroed event has, the buffer terminator. -/
def kEngineEventTypeNull : Nat := 0

/-- Modelled from the spec: the enum value `kEngineEventTypeControl`. -/
def kEngineEventTypeControl : Nat := 1

/-- Modelled from the spec: the enum value `kEngineEventTypeMidi`. -/
def kEngineEventTypeMidi : Nat := 2

/-- The internal event `EngineEvent` (declared in `CarlaEngine.hpp`): the
type tag is kept as its raw value, since the code has a branch for values
that are none of the three known ones.  The two payloads of the union are
separate fields; the code reads only the one the tag selects. -/
structure EngineEvent where
  type : Nat := 0
  time : Nat := 0
  channel : Nat := 0
  ctrl : EngineControlEvent := {}
  midi : EngineMidiEvent := {}
  deriving DecidableEq, Repr

/-- The all-zero event that `carla_zeroStruct` writes. -/
def EngineEvent.zero : EngineEvent := {}

/-- The helper `carla_zeroStruct<EngineEvent>(buf, count)`: the first `count`
slots become all-zero, later slots are untouched. -/
def carla_zeroStruct (buf : List EngineEvent) (count : Nat) : List EngineEvent :=
  List.replicate count EngineEvent.zero ++ buf.drop count

/-- Modelled from the spec: the macro `FLOAT_COPY(dst, src, frames)` (from the
utility headers): the first `frames` samples of `dst` become those of `src`. -/
def FLOAT_COPY (dst src : AudioBuffer) (frames : Nat) : AudioBuffer :=
  fun i => if i < frames then src i else dst i

/-! ## Engine data -/

/-- The host transport record `NativeTimeInfoBBT` (declared in `CarlaNative.h`). -/
structure NativeTimeInfoBBT where
  valid : Bool := false
  bar : Int := 0
  beat : Int := 0
  tick : Int := 0
  barStartTick : FloatBits := 0
  beatsPerBar : FloatBits := 0
  beatType : FloatBits := 0
  ticksPerBeat : FloatBits := 0
  beatsPerMinute : FloatBits := 0
  deriving DecidableEq, Repr

/-- The host transport record `NativeTimeInfo` (declared in `CarlaNative.h`). -/
structure NativeTimeInfo where
  playing : Bool := false
  frame : Nat := 0
  usecs : Nat := 0
  bbt : NativeTimeInfoBBT := {}
  deriving DecidableEq, Repr

/-- The engine transport record `EngineTimeInfoBBT` (declared in
`CarlaEngine.hpp`), field for field of the same types as the host's. -/
structure EngineTimeInfoBBT where
  bar : Int := 0
  beat : Int := 0
  tick : Int := 0
  barStartTick : FloatBits := 0
  beatsPerBar : FloatBits := 0
  beatType : FloatBits := 0
  ticksPerBeat : FloatBits := 0
  beatsPerMinute : FloatBits := 0
  deriving DecidableEq, Repr

/-- The engine transport record `EngineTimeInfo` (declared in
`CarlaEngine.hpp`); `valid` is a bitmask. -/
structure EngineTimeInfo where
  playing : Bool := false
  frame : Nat := 0
  usecs : Nat := 0
  valid : Nat := 0
  bbt : EngineTimeInfoBBT := {}
  deriving DecidableEq, Repr

/-- Modelled from the spec: the bit `EngineTimeInfo::kValidBBT` of the valid
bitmask (declared in `CarlaEngine.hpp`). -/
def kValidBBT : Nat := 1

/-- Modelled from the spec: the record `SaveState` (declared in
`CarlaStateUtils.hpp`), "a plugin's serializable snapshot — type tag, binary
path, display name, label, plus nested parameter/program/custom-data
records".  The four texts are `const char*` members, null when unset; a
parameter record is an index with a value. -/
structure SaveState where
  type : Option String := none
  name : Option String := none
  label : Option String := none
  binary : Option String := none
  parameters : List (Nat × FloatBits) := []
  customData : List (String × String × String) := []
  deriving DecidableEq, Repr

/-- A hosted plugin (`CarlaPlugin`), as far as the engine looks at it:
`realName` is the text `getRealName` writes, `saveState` the snapshot
`getSaveState` returns. -/
structure CarlaPlugin where
  id : Nat := 0
  enabled : Bool := false
  realName : String := ""
  saveState : SaveState := {}
  deriving DecidableEq, Repr

/-- The query `CarlaPlugin::isEnabled`. -/
def CarlaPlugin.isEnabled (plugin : CarlaPlugin) : Bool := plugin.enabled

/-- One slot of the plugin table (`EnginePluginData`): `plugin` is a pointer. -/
structure EnginePluginData where
  plugin : Option CarlaPlugin := none
  deriving DecidableEq, Repr

/-- The part of `CarlaEngine::ProtectedData` the native engine uses.  `plugins` is a
pointer to the slot array; `bufEventsIn` and `bufEventsOut` are the event
buffers `bufEvents.in` and `bufEvents.out`. -/
structure ProtectedData where
  curPluginCount : Nat := 0
  plugins : Option (List EnginePluginData) := some []
  timeInfo : EngineTimeInfo := {}
  bufEventsIn : List EngineEvent := []
  bufEventsOut : List EngineEvent := []
  deriving DecidableEq, Repr

/-- One entry of the call trace of an engine method: the calls to the host
and to the base class that the method makes, in order. -/
inductive Call where
  | write_midi_event (event : NativeMidiEvent)
  | runPendingRtEvents
  deriving DecidableEq, Repr

/-- What `CarlaEngine::ProtectedData::processRack` (in the engine internals)
hands back: it runs the chain over the event buffers and
writes the two output channels. -/
structure RackResult where
  bufEventsIn : List EngineEvent
  bufEventsOut : List EngineEvent
  out0 : AudioBuffer
  out1 : AudioBuffer

/-- The code outside `CarlaEngineNative.cpp` that `process()` calls.
* `fillFromMidiData e size data` is `e.fillFromMidiData(size, data)`;
* `dumpToMidiData ctrl channel size data` is
  `ctrl.dumpToMidiData(channel, size, data)`, which writes `size` and `data`
  through its reference arguments; the values before the call are passed in;
* `processRack pData in0 in1 out0 out1 frames offline` is
  `pData->processRack(inBuf, outBuf, frames, isOffline())`;
* `runPendingRtEvents` carries out the queued plugin actions on the plugin
  table (plugin count and slots);
* `kEngineMaxInternalEventCount` is the capacity of each event buffer, a
  constant of the engine internals. -/
structure Externals where
  fillFromMidiData : EngineEvent → Nat → MidiData → EngineEvent
  dumpToMidiData : EngineControlEvent → Nat → Nat → MidiData → Nat × MidiData
  processRack : ProtectedData → AudioBuffer → AudioBuffer → AudioBuffer → AudioBuffer →
    Nat → Bool → RackResult
  runPendingRtEvents : Nat × Option (List EnginePluginData) → Nat × Option (List EnginePluginData)
  kEngineMaxInternalEventCount : Nat

/-- The state of a `CarlaEngineNative` object. -/
structure CarlaEngineNative where
  pData : ProtectedData := {}
  fIsPatchbay : Bool := false
  fIsActive : Bool := false
  fIsRunning : Bool := false
  fUiServer : CarlaEngineNativeUI := {}
  deriving DecidableEq, Repr

/-- What the callbacks of the host descriptor (`pHost`) answer while one
engine method runs. -/
structure NativeHostDescriptor where
  get_time_info : NativeTimeInfo := {}
  is_offline : Bool := false
  uiName : String := ""
  deriving DecidableEq, Repr

/-- What one call of `process()` leaves behind: the engine object, the two
output channels, and the calls made, in order. -/
structure ProcessResult where
  engine : CarlaEngineNative
  out0 : AudioBuffer
  out1 : AudioBuffer
  trace : List Call

/-! ## Engine methods -/

/-- The call `runPendingRtEvents()` of the base class, as far as this engine
sees it: the queued plugin actions act on the plugin table. -/
def CarlaEngineNative.runPendingRtEvents (x : Externals) (self : CarlaEngineNative) :
    CarlaEngineNative :=
  let r := x.runPendingRtEvents (self.pData.curPluginCount, self.pData.plugins)
  { self with pData := { self.pData with curPluginCount := r.1, plugins := r.2 } }

/-- The block "Time Info" of `process()`: `timeInfo` is what the host's
`get_time_info` returned, `t` is `pData->timeInfo`. -/
def processTimeInfo (timeInfo : NativeTimeInfo) (t : EngineTimeInfo) : EngineTimeInfo :=
  let t := { t with playing := timeInfo.playing }
  let t := { t with frame := timeInfo.frame }
  let t := { t with usecs := timeInfo.usecs }
  let t := { t with valid := 0 }
  if timeInfo.bbt.valid then
    let t := { t with valid := t.valid ||| kValidBBT }
    let bbt := t.bbt
    let bbt := { bbt with bar := timeInfo.bbt.bar }
    let bbt := { bbt with beat := timeInfo.bbt.beat }
    let bbt := { bbt with tick := timeInfo.bbt.tick }
    let bbt := { bbt with barStartTick := timeInfo.bbt.barStartTick }
    let bbt := { bbt with beatsPerBar := timeInfo.bbt.beatsPerBar }
    let bbt := { bbt with beatType := timeInfo.bbt.beatType }
    let bbt := { bbt with ticksPerBeat := timeInfo.bbt.ticksPerBeat }
    let bbt := { bbt with beatsPerMinute := timeInfo.bbt.beatsPerMinute }
    { t with bbt := bbt }
  else
    t

/-- The loop of the block "events input" of `process()`.  The list is
`midiEvents[i..midiEventCount)`, so that the head is `midiEvents[i]`; `buf` is
`pData->bufEvents.in`.  One step takes the slot `buf[engineEventIndex]`, sets
its time, fills it from the MIDI bytes and advances the index; the loop ends
when the events or the slots are used up. -/
def eventsInputLoop (x : Externals) :
    List NativeMidiEvent → Nat → List EngineEvent → List EngineEvent
  | [], _, buf => buf
  | midiEvent :: rest, engineEventIndex, buf =>
    if engineEventIndex < x.kEngineMaxInternalEventCount then
      let engineEvent := buf.getD engineEventIndex EngineEvent.zero
      let engineEvent := { engineEvent with time := midiEvent.time }
      let engineEvent := x.fillFromMidiData engineEvent midiEvent.size midiEvent.data
      let buf := buf.set engineEventIndex engineEvent
      let engineEventIndex := engineEventIndex + 1
      if engineEventIndex ≥ x.kEngineMaxInternalEventCount then
        buf
      else
        eventsInputLoop x rest engineEventIndex buf
    else
      buf

/-- The inner loop `for (uint8_t j=1; j < midiEvent.size; ++j)
midiEvent.data[j] = engineEvent.midi.data[j];`. -/
def copyMidiData (size : Nat) (src dst : MidiData) : MidiData :=
  (List.range' 1 (size - 1)).foldl (fun d j => d.set j (src.get j)) dst

/-- The body of one iteration of the loop of the block "events output",
past the check for the terminator.  `midiEvent` is the local that the loop
reuses from one iteration to the next.  The result is that local as the
iteration leaves it, and whether the iteration reaches
`pHost->write_midi_event` (`false` when it leaves through `continue`). -/
def eventsOutputStep (x : Externals) (engineEvent : EngineEvent)
    (midiEvent : NativeMidiEvent) : NativeMidiEvent × Bool :=
  let midiEvent := { midiEvent with time := engineEvent.time }
  if engineEvent.type = kEngineEventTypeControl then
    let midiEvent := { midiEvent with port := 0 }
    let r := x.dumpToMidiData engineEvent.ctrl engineEvent.channel midiEvent.size midiEvent.data
    let midiEvent := { midiEvent with size := r.1, data := r.2 }
    (midiEvent, true)
  else if engineEvent.type = kEngineEventTypeMidi then
    if engineEvent.midi.size > 4 ∨ engineEvent.midi.dataExt ≠ none then
      (midiEvent, false)
    else
      let midiEvent := { midiEvent with port := engineEvent.midi.port }
      let midiEvent := { midiEvent with size := engineEvent.midi.size }
      let midiEvent := { midiEvent with
        data := midiEvent.data.set 0 ((engineEvent.midi.data.get 0 + engineEvent.channel) % 256) }
      let midiEvent := { midiEvent with
        data := copyMidiData midiEvent.size engineEvent.midi.data midiEvent.data }
      (midiEvent, true)
  else
    (midiEvent, false)

/-- The loop of the block "events output" of `process()`.  The list is
`pData->bufEvents.out[i..kEngineMaxInternalEventCount)`.  The result is the
list of events passed to `pHost->write_midi_event`, in call order. -/
def eventsOutputLoop (x : Externals) :
    List EngineEvent → NativeMidiEvent → List NativeMidiEvent
  | [], _ => []
  | engineEvent :: rest, midiEvent =>
    if engineEvent.type = kEngineEventTypeNull then
      []
    else
      let r := eventsOutputStep x engineEvent midiEvent
      if r.2 then
        r.1 :: eventsOutputLoop x rest r.1
      else
        eventsOutputLoop x rest r.1

/-- The first half of the full path of `process()`: the blocks "Time Info",
"initialize events" and "events input".  The result is the engine data as
the processing function is about to see it. -/
def processInput (x : Externals) (pHost : NativeHostDescriptor) (pData : ProtectedData)
    (midiEvents : List NativeMidiEvent) : ProtectedData :=
  let timeInfo := pHost.get_time_info
  let pData := { pData with timeInfo := processTimeInfo timeInfo pData.timeInfo }
  let pData := { pData with
    bufEventsIn := carla_zeroStruct pData.bufEventsIn x.kEngineMaxInternalEventCount }
  let pData := { pData with
    bufEventsOut := carla_zeroStruct pData.bufEventsOut x.kEngineMaxInternalEventCount }
  { pData with bufEventsIn := eventsInputLoop x midiEvents 0 pData.bufEventsIn }

/-- The block "events output" of `process()`: the loop runs over the first
`kEngineMaxInternalEventCount` slots of `bufEvents.out`. -/
def eventsOutput (x : Externals) (bufEventsOut : List EngineEvent)
    (midiEvent : NativeMidiEvent) : List NativeMidiEvent :=
  eventsOutputLoop x (bufEventsOut.take x.kEngineMaxInternalEventCount) midiEvent

/-- The processing block of `process()`, the statement `if (fIsPatchbay)`:
in patchbay mode the processing call is commented out in the source, so
nothing runs there; in rack mode `processRack` runs once. -/
def processAudio (x : Externals) (pHost : NativeHostDescriptor) (fIsPatchbay : Bool)
    (pData : ProtectedData) (in0 in1 out0 out1 : AudioBuffer) (frames : Nat) : RackResult :=
  if fIsPatchbay then
    { bufEventsIn := pData.bufEventsIn, bufEventsOut := pData.bufEventsOut,
      out0 := out0, out1 := out1 }
  else
    x.processRack pData in0 in1 out0 out1 frames pHost.is_offline

/-- The method `CarlaEngineNative::process`.  `midiEvents` is the array of
`midiEventCount` events; `midiEvent` is the value the uninitialised local of
the output block happens to hold. -/
def CarlaEngineNative.process (x : Externals) (pHost : NativeHostDescriptor)
    (self : CarlaEngineNative) (in0 in1 out0 out1 : AudioBuffer) (frames : Nat)
    (midiEvents : List NativeMidiEvent) (midiEvent : NativeMidiEvent) : ProcessResult :=
  if self.pData.curPluginCount = 0 ∧ ! self.fIsPatchbay then
    let out0 := FLOAT_COPY out0 in0 frames
    let out1 := FLOAT_COPY out1 in1 frames
    { engine := self.runPendingRtEvents x, out0 := out0, out1 := out1,
      trace := [Call.runPendingRtEvents] }
  else
    let pData := processInput x pHost self.pData midiEvents
    let r := processAudio x pHost self.fIsPatchbay pData in0 in1 out0 out1 frames
    let pData := { pData with bufEventsIn := r.bufEventsIn, bufEventsOut := r.bufEventsOut }
    let pData := { pData with
      bufEventsIn := carla_zeroStruct pData.bufEventsIn x.kEngineMaxInternalEventCount }
    let written := eventsOutput x pData.bufEventsOut midiEvent
    let self := { self with pData := pData }
    { engine := self.runPendingRtEvents x, out0 := r.out0, out1 := r.out1,
      trace := written.map Call.write_midi_event ++ [Call.runPendingRtEvents] }

/-- The method `CarlaEngineNative::_getFirstPlugin`.  Reading slot 0 of a
slot array that has no slot 0 yields a null plugin pointer. -/
def CarlaEngineNative._getFirstPlugin (self : CarlaEngineNative) : Option CarlaPlugin :=
  if self.pData.curPluginCount = 0 ∨ self.pData.plugins = none then
    none
  else
    let plugin := ((self.pData.plugins.getD []).getD 0 {}).plugin
    match plugin with
    | none => none
    | some p => if ! p.isEnabled then none else ((self.pData.plugins.getD []).getD 0 {}).plugin

/-- The lookup as the specification words it: the first chain entry, in
order, that is both present and enabled; absent if there is none.  The chain
is the first `curPluginCount` slots. -/
def firstEnabledPlugin (pData : ProtectedData) : Option CarlaPlugin :=
  ((pData.plugins.getD []).take pData.curPluginCount).findSome?
    fun slot => slot.plugin.filter CarlaPlugin.isEnabled

/-! ## The translations as the specification words them -/

/-- The internal event that one external event becomes on the way in: a
zeroed slot, given the event's time and then filled from its size and bytes. -/
def inboundEvent (x : Externals) (m : NativeMidiEvent) : EngineEvent :=
  x.fillFromMidiData { EngineEvent.zero with time := m.time } m.size m.data

/-- The entries the outbound translation delivers: Control-typed ones, and
Midi-typed ones of at most four bytes without extended data. -/
def isDelivered (e : EngineEvent) : Bool :=
  e.type = kEngineEventTypeControl ∨
    (e.type = kEngineEventTypeMidi ∧ e.midi.size ≤ 4 ∧ e.midi.dataExt = none)

/-- The external event a delivered entry becomes.  `prev` is the event
delivered before it (or the initial contents of the local for the first
one): the bytes the translation does not write are left over from it. -/
def translate (x : Externals) (e : EngineEvent) (prev : NativeMidiEvent) : NativeMidiEvent :=
  if e.type = kEngineEventTypeControl then
    { time := e.time, port := 0,
      size := (x.dumpToMidiData e.ctrl e.channel prev.size prev.data).1,
      data := (x.dumpToMidiData e.ctrl e.channel prev.size prev.data).2 }
  else
    { time := e.time, port := e.midi.port, size := e.midi.size,
      data := copyMidiData e.midi.size e.midi.data
        (prev.data.set 0 ((e.midi.data.get 0 + e.channel) % 256)) }

/-- The translations of a list of delivered entries, in order. -/
def translations (x : Externals) : List EngineEvent → NativeMidiEvent → List NativeMidiEvent
  | [], _ => []
  | e :: es, prev => translate x e prev :: translations x es (translate x e prev)

/-- Modelled from the spec: the method `EngineEvent::fillFromMidiData` (defined
with the engine's event types, not in `CarlaEngineNative.cpp`).  The spec's
words for the inbound
direction are "copy timestamp and raw bytes into one internal Midi-typed
event": the event becomes Midi-typed and takes the size and the raw bytes;
the time is copied by the caller; nothing else is written. -/
def fillFromMidiData (e : EngineEvent) (size : Nat) (data : MidiData) : EngineEvent :=
  { e with type := kEngineEventTypeMidi, midi := { e.midi with size := size, data := data } }

/-- What the round trip compares of an external event: its time, its channel
(the low four bits of the status byte) and its `size` bytes. -/
def NativeMidiEvent.content (m : NativeMidiEvent) : Nat × Nat × List Nat :=
  (m.time, m.data.get 0 % 16, (List.range m.size).map m.data.get)

/-- An external event as the host can pass it in: at most four inline bytes,
each of them a byte. -/
def NativeMidiEvent.WellFormed (m : NativeMidiEvent) : Prop :=
  m.size ≤ 4 ∧ m.data.b0 < 256 ∧ m.data.b1 < 256 ∧ m.data.b2 < 256 ∧ m.data.b3 < 256

instance (m : NativeMidiEvent) : Decidable m.WellFormed := by
  unfold NativeMidiEvent.WellFormed; infer_instance

/-! ## Sample values -/

/-- A stand-in for the code outside `CarlaEngineNative.cpp`, with a capacity of three
events: the control dump writes a three-byte control change, the rack copies
input to output and echoes the inbound events. -/
def sampleExternals : Externals where
  fillFromMidiData := fillFromMidiData
  dumpToMidiData := fun ctrl channel _ data =>
    (3, { data with b0 := (176 + channel) % 256, b1 := ctrl.param % 256, b2 := ctrl.value % 256 })
  processRack := fun pData in0 in1 _ _ _ _ =>
    { bufEventsIn := pData.bufEventsIn, bufEventsOut := pData.bufEventsIn, out0 := in0, out1 := in1 }
  runPendingRtEvents := fun t => t
  kEngineMaxInternalEventCount := 3

/-- A note-on event on channel 1 at frame 5. -/
def sampleNoteOn : NativeMidiEvent :=
  { time := 5, port := 0, size := 3, data := { b0 := 145, b1 := 60, b2 := 100 } }

/-- A note-off event on channel 1 at frame 9. -/
def sampleNoteOff : NativeMidiEvent :=
  { time := 9, port := 0, size := 3, data := { b0 := 129, b1 := 60, b2 := 0 } }

/-- An enabled plugin. -/
def samplePlugin : CarlaPlugin := { id := 7, enabled := true }

/-- An engine in rack mode whose chain holds one enabled plugin. -/
def sampleRackEngine : CarlaEngineNative :=
  { pData := { curPluginCount := 1, plugins := some [{ plugin := some samplePlugin }] } }

/-- An engine whose slot 0 is empty and whose slot 1 holds an enabled plugin. -/
def sampleGapEngine : CarlaEngineNative :=
  { pData := { curPluginCount := 2, plugins := some [{ plugin := none }, { plugin := some samplePlugin }] } }

/-- A host whose transport rolls at frame 4800 with valid BBT, bar 3 beat 2. -/
def sampleHost : NativeHostDescriptor :=
  { get_time_info := { playing := true, frame := 4800, usecs := 100000,
                       bbt := { valid := true, bar := 3, beat := 2, tick := 10 } } }

/-- The rack engine with one plugin, holding an older transport snapshot. -/
def sampleBusyEngine : CarlaEngineNative :=
  { pData := { curPluginCount := 1, plugins := some [{ plugin := some samplePlugin }],
               timeInfo := { frame := 1, valid := 0, bbt := { bar := 1 } } } }

/-- A Midi-typed outbound entry: note-on status 144 on channel 1, three bytes. -/
def sampleOutboundNote : EngineEvent :=
  { type := kEngineEventTypeMidi, time := 7, channel := 1,
    midi := { port := 0, size := 3, data := { b0 := 144, b1 := 60, b2 := 100 } } }

/-- An input channel: the sample at frame `i` is `i + 1`. -/
def sampleInput : AudioBuffer := fun i => i + 1

/-- A silent channel. -/
def sampleSilence : AudioBuffer := fun _ => 0

/-! ## The UI session: polling and the host-facing calls -/

/-- Modelled from the spec: the polling loop of `CarlaPipeServer::idle`, "read
at most the currently available messages, dispatch each to the command
handler".  One round reads a line as a message name and hands it to
`msgReceived`, which reads the argument lines it wants.  `calls` are the
engine calls made so far; `hasPlugin calls id` tells whether
`fEngine->getPlugin(id)` is non-null once they are made.  The base class
reaches the members of `CarlaEngineNativeUI` through `msgReceived` only. -/
def CarlaEngineNativeUI.idleLoop (hasPlugin : List EngineCall → Int → Bool) :
    Nat → CarlaEngineNativeUI → List EngineCall → CarlaEngineNativeUI × List EngineCall
  | 0, ui, calls => (ui, calls)
  | fuel + 1, ui, calls =>
    match ui.pipe.readline with
    | (none, _) => (ui, calls)
    | (some msg, p) =>
      let r := ({ ui with pipe := p }).msgReceived (hasPlugin calls) msg
      CarlaEngineNativeUI.idleLoop hasPlugin fuel r.1 (calls ++ r.2)

/-- Modelled from the spec: `CarlaPipeServer::idle`, the non-blocking poll.
Every round consumes at least one line, so as many rounds as there are
pending lines drain the stream. -/
def CarlaEngineNativeUI.idle (hasPlugin : List EngineCall → Int → Bool)
    (ui : CarlaEngineNativeUI) : CarlaEngineNativeUI × List EngineCall :=
  CarlaEngineNativeUI.idleLoop hasPlugin ui.pipe.pending.length ui []

/-- Modelled from the spec: `CarlaPipeServer::stop`, "request graceful
shutdown; must tolerate the child already having exited": afterwards the
server owns no child process. -/
def CarlaPipeServer.stop (p : CarlaPipeServer) : CarlaPipeServer :=
  { p with child := none }

/-- What can happen to a UI session: the methods a caller can invoke on it and
the events of the channel (the child writes a line, the child process dies). -/
inductive UiOp where
  | setData (filename sampleRate uiTitle : String)
  | start
  | stop
  | idle
  | getAndResetUiState
  | childWrites (line : String)
  | childDies
  deriving DecidableEq, Repr

/-- A UI session under observation: the object, the values that
`getAndResetUiState` has returned so far and the engine calls made so far. -/
structure UiRun where
  ui : CarlaEngineNativeUI := {}
  observed : List UiState := []
  calls : List EngineCall := []
  deriving DecidableEq, Repr

/-- One operation or channel event applied to a session. -/
def UiRun.step (hasPlugin : List EngineCall → Int → Bool) (r : UiRun) : UiOp → UiRun
  | UiOp.setData filename sampleRate uiTitle =>
    { r with ui := r.ui.setData filename sampleRate uiTitle }
  | UiOp.start => { r with ui := r.ui.start }
  | UiOp.stop => { r with ui := { r.ui with pipe := r.ui.pipe.stop } }
  | UiOp.idle =>
    let res := r.ui.idle fun calls => hasPlugin (r.calls ++ calls)
    { r with ui := res.1, calls := r.calls ++ res.2 }
  | UiOp.getAndResetUiState =>
    let res := r.ui.getAndResetUiState
    { r with ui := res.2, observed := r.observed ++ [res.1] }
  | UiOp.childWrites line =>
    { r with ui := { r.ui with pipe := { r.ui.pipe with pending := r.ui.pipe.pending ++ [line] } } }
  | UiOp.childDies =>
    { r with ui := { r.ui with pipe := { r.ui.pipe with child := none } } }

/-- A sequence of operations and channel events applied to a session, in order. -/
def UiRun.run (hasPlugin : List EngineCall → Int → Bool) (r : UiRun) (ops : List UiOp) : UiRun :=
  ops.foldl (UiRun.step hasPlugin) r

/-- Modelled from the spec: the opcodes of the host dispatcher
(`NativeHostDispatcherOpcode` in `CarlaNative.h`) that the engine sends. -/
inductive NativeHostDispatcherOpcode where
  | HOST_OPCODE_NULL
  | HOST_OPCODE_RELOAD_ALL
  | HOST_OPCODE_UI_UNAVAILABLE
  deriving DecidableEq, Repr

/-- A call to the host outside the audio callback: `pHost->dispatcher(handle,
opcode, index, value, ptr, opt)` with `ptr` null and `opt` given as its bit
pattern, or `pHost->ui_closed(handle)`. -/
inductive HostCall where
  | dispatcher (opcode : NativeHostDispatcherOpcode) (index value : Int) (opt : FloatBits)
  | ui_closed
  deriving DecidableEq, Repr

/-- What `uiIdle()` leaves behind: the engine object, the engine calls made
while polling (their effect on the engine data is not applied here) and the
calls to the host, in order. -/
structure UiIdleResult where
  engine : CarlaEngineNative
  engineCalls : List EngineCall
  hostCalls : List HostCall
  deriving DecidableEq, Repr

/-- The method `CarlaEngineNative::uiIdle`.  `engineIdle` is the base-class
`CarlaEngine::idle()`, acting on the engine data. -/
def CarlaEngineNative.uiIdle (engineIdle : ProtectedData → ProtectedData)
    (hasPlugin : List EngineCall → Int → Bool) (self : CarlaEngineNative) : UiIdleResult :=
  let self := { self with pData := engineIdle self.pData }
  let polled := self.fUiServer.idle hasPlugin
  let r := polled.1.getAndResetUiState
  let self := { self with fUiServer := r.2 }
  match r.1 with
  | UiState.UiNone => { engine := self, engineCalls := polled.2, hostCalls := [] }
  | UiState.UiShow => { engine := self, engineCalls := polled.2, hostCalls := [] }
  | UiState.UiCrashed =>
    { engine := self, engineCalls := polled.2,
      hostCalls := [HostCall.dispatcher NativeHostDispatcherOpcode.HOST_OPCODE_UI_UNAVAILABLE 0 0 0] }
  | UiState.UiHide => { engine := self, engineCalls := polled.2, hostCalls := [HostCall.ui_closed] }

/-- The method `CarlaEngineNative::uiShow`. -/
def CarlaEngineNative.uiShow (pHost : NativeHostDescriptor) (sampleRate : String)
    (self : CarlaEngineNative) (show_ : Bool) : CarlaEngineNative :=
  if show_ then
    let ui := self.fUiServer.setData "/home/falktx/FOSS/GIT-mine/Carla/source/carla-plugin"
      sampleRate pHost.uiName
    { self with fUiServer := ui.start }
  else
    { self with fUiServer := { self.fUiServer with pipe := self.fUiServer.pipe.stop } }

/-! ## Outbound notifications -/

/-- The character of a decimal digit. -/
def digitChar (d : Nat) : Char := Char.ofNat (48 + d)

/-- The decimal digits of `n`, most significant first, in front of `acc`;
`fuel` bounds the number of digits. -/
def formatDigits : Nat → Nat → List Char → List Char
  | 0, _, acc => acc
  | fuel + 1, n, acc =>
    if n / 10 = 0 then
      digitChar (n % 10) :: acc
    else
      formatDigits fuel (n / 10) (digitChar (n % 10) :: acc)

/-- The text `sprintf` writes for `%u`. -/
def formatUnsigned (n : Nat) : String := String.mk (formatDigits (n + 1) n [])

/-- The text `sprintf` writes for `%i`. -/
def formatInt (i : Int) : String :=
  if i < 0 then String.mk ('-' :: formatDigits (i.natAbs + 1) i.natAbs [])
  else formatUnsigned i.natAbs

/-- Modelled from the spec: `CarlaPipeServer::writeAndFixMsg`, the writer for
"the string value with special characters escaped so embedded newlines cannot
desynchronize framing": every newline of the text is replaced and the message
is ended by one newline. -/
def CarlaPipeServer.writeAndFixMsg (p : CarlaPipeServer) (msg : String) : CarlaPipeServer :=
  p.writeMsg (String.mk ((msg.data.map fun c => if c = '\n' then '\r' else c) ++ ['\n']))

/-- The method `CarlaEngineNative::uiServerCallback`.  `formatFloat` is the
text `sprintf` writes for `%f`; `action` is the opcode as `int(action)`. -/
def CarlaEngineNative.uiServerCallback (formatFloat : FloatBits → String)
    (self : CarlaEngineNative) (action : Int) (pluginId : Nat) (value1 value2 : Int)
    (value3 : FloatBits) (valueStr : String) : CarlaEngineNative :=
  if ! self.fIsRunning then
    self
  else
    let pipe := self.fUiServer.pipe
    let pipe := pipe.writeMsg ("ENGINE_CALLBACK_" ++ formatInt action ++ "\n")
    let pipe := pipe.writeMsg (formatUnsigned pluginId ++ "\n")
    let pipe := pipe.writeMsg (formatInt value1 ++ "\n")
    let pipe := pipe.writeMsg (formatInt value2 ++ "\n")
    let pipe := pipe.writeMsg (formatFloat value3 ++ "\n")
    let pipe := pipe.writeAndFixMsg valueStr
    { self with fUiServer := { self.fUiServer with pipe := pipe } }

/-- The values the code can leave in `fUiState` when it held `s0` before: the
old value, `UiNone` (stored by `getAndResetUiState`) and `UiHide` (stored by
`msgReceived`). -/
def UiState.StoredFrom (s0 s : UiState) : Prop :=
  s = s0 ∨ s = UiState.UiNone ∨ s = UiState.UiHide

instance (s0 s : UiState) : Decidable (UiState.StoredFrom s0 s) := by
  unfold UiState.StoredFrom; infer_instance

/-- The scenario of a crash: the session is set up and started, the child dies
without a word, the channel is polled and the state is read. -/
def sampleCrashScenario : List UiOp :=
  [UiOp.setData "carla-plugin" "48000" "Carla", UiOp.start, UiOp.childDies, UiOp.idle,
   UiOp.getAndResetUiState]

/-- A running engine with nothing written to its UI channel yet. -/
def sampleRunningEngine : CarlaEngineNative := { fIsRunning := true }

/-- A stand-in for the `%f` text of `sprintf`: every value reads one half. -/
def sampleFormatFloat : FloatBits → String := fun _ => "0.500000"

/-! ## Saving and loading the chain -/

/-- A child node of the document element, as `setState` looks at it:
`tagName` is `node.toElement().tagName()`, the tag of an element and the
empty text for a node that is no element (a comment, a text); `payload` is
what the node holds, which only `fillSaveStateFromXmlNode` reads. -/
structure QDomNode where
  tagName : String := ""
  payload : String := ""
  deriving DecidableEq, Repr

/-- A parsed document, as `setState` looks at it: the tag of the document
element and its child nodes in order.  A document without document element,
as after a failed parse, has the empty tag and no child. -/
structure QDomDocument where
  rootTagName : String := ""
  rootChildren : List QDomNode := []
  deriving DecidableEq, Repr

/-- Whether `a.compare(b, Qt::CaseInsensitive)` returns 0. -/
def compareCaseInsensitive (a b : String) : Bool :=
  a.data.map Char.toLower = b.data.map Char.toLower

/-- The method `CarlaString::endsWith`. -/
def endsWith (text ending : String) : Bool :=
  ending.data.isSuffixOf text.data

/-- The constant `kUse16OutsSuffix` of `setState`. -/
def kUse16OutsSuffix : String := " (16 outs)"

/-- The code outside `CarlaEngineNative.cpp` that `getState()` and
`setState()` call.
* `xmlSafeString text toXml` and `fillXmlStringFromSaveState state` (the
  text it appends to an empty `content`) are helpers of the state utilities;
* `setContent data` is the Qt parser, `xml.setContent(QString(data))`
  followed by `xml.documentElement()`;
* `fillSaveStateFromXmlNode node` is the save state the helper fills in;
* `getPluginTypeFromString` maps the type tag to the `PluginType` value;
* `addPlugin pData ptype filename name label extra` is the five-argument
  `addPlugin(ptype, filename, name, label, extra)` of the engine, with its
  result and the engine data it leaves;
* `loadSaveState plugin state` is `plugin->loadSaveState(state)`. -/
structure StateExternals where
  xmlSafeString : String → Bool → String
  fillXmlStringFromSaveState : SaveState → String
  setContent : String → QDomDocument
  fillSaveStateFromXmlNode : QDomNode → SaveState
  getPluginTypeFromString : String → Nat
  addPlugin : ProtectedData → Nat → Option String → Option String → Option String →
    Option String → Bool × ProtectedData
  loadSaveState : CarlaPlugin → SaveState → CarlaPlugin

/-- One call made by `setState()`, in order: the engine's `addPlugin` with its
arguments and result, `loadSaveState` on the plugin with the given id,
a call to the host, or a diagnostic on the error stream. -/
inductive StateCall where
  | addPlugin (ptype : Nat) (filename name label extra : Option String) (ok : Bool)
  | loadSaveState (id : Nat) (state : SaveState)
  | host (call : HostCall)
  | carla_stderr2 (msg : String)
  | carla_safe_assert (assertion : String)
  deriving DecidableEq, Repr

/-- What `setState()` leaves behind: the engine object and the calls made. -/
structure SetStateResult where
  engine : CarlaEngineNative
  trace : List StateCall
  deriving DecidableEq, Repr

/-- The three header lines `getState()` writes first. -/
def getStateHeader : String :=
  "<?xml version='1.0' encoding='UTF-8'?>\n" ++ "<!DOCTYPE CARLA-PROJECT>\n" ++
    "<CARLA-PROJECT VERSION='2.0'>\n"

/-- The footer line `getState()` writes last. -/
def getStateFooter : String := "</CARLA-PROJECT>\n"

/-- The body of the loop of `getState()` for slot `i`: `st` is the text
written so far with the flag `firstPlugin`. -/
def getStateStep (x : StateExternals) (pData : ProtectedData) (st : String × Bool)
    (i : Nat) : String × Bool :=
  let out := st.1
  let firstPlugin := st.2
  match ((pData.plugins.getD []).getD i {}).plugin with
  | none => (out, firstPlugin)
  | some plugin =>
    if plugin.isEnabled then
      let out := if ! firstPlugin then out ++ "\n" else out
      let strBuf := plugin.realName
      let out := if strBuf ≠ "" then out ++ (" <!-- " ++ x.xmlSafeString strBuf true ++ " -->\n")
        else out
      let content := x.fillXmlStringFromSaveState plugin.saveState
      let out := out ++ " <Plugin>\n"
      let out := out ++ content
      let out := out ++ " </Plugin>\n"
      (out, false)
    else
      (out, firstPlugin)

/-- The method `CarlaEngineNative::getState`: the text of the document. -/
def CarlaEngineNative.getState (x : StateExternals) (self : CarlaEngineNative) : String :=
  let out := "<?xml version='1.0' encoding='UTF-8'?>\n"
  let out := out ++ "<!DOCTYPE CARLA-PROJECT>\n"
  let out := out ++ "<CARLA-PROJECT VERSION='2.0'>\n"
  let st := (List.range self.pData.curPluginCount).foldl (getStateStep x self.pData) (out, true)
  st.1 ++ "</CARLA-PROJECT>\n"

/-- Modelled from the spec: `CarlaEngine::getPlugin`, "get(id) -> plugin or
absent": the plugin of slot `id` for an id inside the chain. -/
def getPlugin (pData : ProtectedData) (id : Nat) : Option CarlaPlugin :=
  if id < pData.curPluginCount then ((pData.plugins.getD []).getD id {}).plugin else none

/-- A change made to the plugin of slot `id` through its pointer. -/
def setPlugin (pData : ProtectedData) (id : Nat) (plugin : CarlaPlugin) : ProtectedData :=
  { pData with plugins := pData.plugins.map fun slots => slots.set id { plugin := some plugin } }

/-- The check "using GIG, SF2 or SFZ 16outs" of `setState()`: the value of
`extraStuff` for an element with the given label and type tag. -/
def use16OutsHint (label : Option String) (type : String) : Option String :=
  if endsWith (label.getD "") kUse16OutsSuffix then
    if type = "GIG" ∨ type = "SF2" then some "true" else none
  else
    none

/-- The body of the loop of `setState()` for one child node.  The state is
the engine data, the flag `pluginsAdded` and the calls made so far.  The id
`curPluginCount-1` is computed with truncated subtraction: for an empty chain
the unsigned value wraps to an id outside every chain, and so is 0 outside an
empty chain. -/
def setStateStep (x : StateExternals) (st : ProtectedData × Bool × List StateCall)
    (node : QDomNode) : ProtectedData × Bool × List StateCall :=
  let pData := st.1
  let pluginsAdded := st.2.1
  let trace := st.2.2
  if compareCaseInsensitive node.tagName "plugin" then
    let saveState := x.fillSaveStateFromXmlNode node
    match saveState.type with
    | none => (pData, pluginsAdded, trace ++ [StateCall.carla_safe_assert "saveState.type != nullptr"])
    | some type =>
      let extraStuff := use16OutsHint saveState.label type
      let r := x.addPlugin pData (x.getPluginTypeFromString type) saveState.binary saveState.name
        saveState.label extraStuff
      let pData := r.2
      let trace := trace ++ [StateCall.addPlugin (x.getPluginTypeFromString type) saveState.binary
        saveState.name saveState.label extraStuff r.1]
      if r.1 then
        match getPlugin pData (pData.curPluginCount - 1) with
        | some plugin =>
          (setPlugin pData (pData.curPluginCount - 1) (x.loadSaveState plugin saveState), true,
            trace ++ [StateCall.loadSaveState (pData.curPluginCount - 1) saveState])
        | none => (pData, true, trace)
      else
        (pData, true, trace)
  else
    (pData, pluginsAdded, trace)

/-- The method `CarlaEngineNative::setState`. -/
def CarlaEngineNative.setState (x : StateExternals) (self : CarlaEngineNative)
    (data : String) : SetStateResult :=
  let xml := x.setContent data
  if ! compareCaseInsensitive xml.rootTagName "carla-project" then
    { engine := self, trace := [StateCall.carla_stderr2 "Not a valid Carla project"] }
  else
    let st := xml.rootChildren.foldl (setStateStep x) (self.pData, false, [])
    let trace :=
      if st.2.1 then
        st.2.2 ++ [StateCall.host
          (HostCall.dispatcher NativeHostDispatcherOpcode.HOST_OPCODE_RELOAD_ALL 0 0 0)]
      else
        st.2.2
    { engine := { self with pData := st.1 }, trace := trace }

/-! ## The chain and the document as the specification words them -/

/-- The plugins a document describes: for each slot `i < curPluginCount`, in
chain order, the plugin when it is present and enabled. -/
def chainPlugins (pData : ProtectedData) : List CarlaPlugin :=
  (List.range pData.curPluginCount).filterMap fun i =>
    ((pData.plugins.getD []).getD i {}).plugin.filter CarlaPlugin.isEnabled

/-- The text one enabled plugin contributes to the document: its real name
as a comment when it has one, then its `<Plugin>` element. -/
def pluginBlock (x : StateExternals) (plugin : CarlaPlugin) : String :=
  (if plugin.realName ≠ "" then " <!-- " ++ x.xmlSafeString plugin.realName true ++ " -->\n"
    else "") ++
  (" <Plugin>\n" ++ (x.fillXmlStringFromSaveState plugin.saveState ++ " </Plugin>\n"))

/-- The blocks of a document, one after the other, an empty line between two. -/
def documentBody : List String → String
  | [] => ""
  | [block] => block
  | block :: next :: rest => block ++ ("\n" ++ documentBody (next :: rest))

/-- Modelled from the spec: `CarlaEngine::addPlugin`.  "Add fails (reports
failure, does not throw/abort) if the plugin cannot be located/instantiated
by the given identifiers, or chain capacity is exceeded"; "ordering is
insertion order; ids are stable slot indices".  `instantiate` is the plugin
loading mechanism; the capacity is the length of the slot array. -/
def addPlugin
    (instantiate : Nat → Option String → Option String → Option String → Option String →
      Option CarlaPlugin)
    (pData : ProtectedData) (ptype : Nat) (filename name label extra : Option String) :
    Bool × ProtectedData :=
  match pData.plugins with
  | none => (false, pData)
  | some slots =>
    if pData.curPluginCount < slots.length then
      match instantiate ptype filename name label extra with
      | none => (false, pData)
      | some plugin =>
        (true, { pData with
          plugins := some (slots.set pData.curPluginCount { plugin := some plugin }),
          curPluginCount := pData.curPluginCount + 1 })
    else
      (false, pData)

/-- Modelled from the spec: `CarlaPlugin::loadSaveState`, "apply the parsed
parameter/program/custom-data state to the newly added instance": the
snapshot of the plugin becomes the loaded one. -/
def loadSaveState (plugin : CarlaPlugin) (state : SaveState) : CarlaPlugin :=
  { plugin with saveState := state }

/-! ## Sample documents -/

/-- The snapshot of a sound-font piano in its 16-outputs variant. -/
def samplePianoState : SaveState :=
  { type := some "SF2", name := some "Piano", label := some "Piano (16 outs)",
    binary := some "piano.sf2", parameters := [(0, 5)] }

/-- The snapshot of an LV2 synthesiser. -/
def sampleSynthState : SaveState :=
  { type := some "LV2", name := some "Synth", label := some "urn:synth", parameters := [(1, 9)] }

/-- A project document: two comments and two plugin elements. -/
def sampleProjectDocument : QDomDocument :=
  { rootTagName := "CARLA-PROJECT",
    rootChildren := [{ payload := "Piano" }, { tagName := "Plugin", payload := "piano" },
                     { payload := "Synth" }, { tagName := "Plugin", payload := "synth" }] }

/-- A project document with one plugin element. -/
def sampleSynthDocument : QDomDocument :=
  { rootTagName := "CARLA-PROJECT", rootChildren := [{ tagName := "Plugin", payload := "synth" }] }

/-- A stand-in for the plugin loader: every plugin is found, comes up enabled
and is named after the name asked for. -/
def sampleInstantiate : Nat → Option String → Option String → Option String →
    Option String → Option CarlaPlugin :=
  fun ptype _ name _ _ => some { id := ptype, enabled := true, realName := name.getD "" }

/-- A stand-in for the code outside `CarlaEngineNative.cpp`: the writer names
the type tag, the parser knows three texts, the reader knows two payloads. -/
def sampleStateExternals : StateExternals where
  xmlSafeString := fun text _ => text
  fillXmlStringFromSaveState := fun state => "  <Type>" ++ state.type.getD "" ++ "</Type>\n"
  setContent := fun data =>
    if data = "" then {}
    else if data = "not a project" then { rootTagName := "html" }
    else if data = "synth only" then sampleSynthDocument
    else sampleProjectDocument
  fillSaveStateFromXmlNode := fun node =>
    if node.payload = "piano" then samplePianoState
    else if node.payload = "synth" then sampleSynthState
    else {}
  getPluginTypeFromString := fun type => if type = "LV2" then 4 else if type = "SF2" then 8 else 0
  addPlugin := addPlugin sampleInstantiate
  loadSaveState := loadSaveState

/-- The same stand-in with a plugin loader that finds nothing. -/
def sampleFailingExternals : StateExternals :=
  { sampleStateExternals with addPlugin := addPlugin fun _ _ _ _ _ => none }

/-- An engine with an empty chain of four slots. -/
def sampleFreshEngine : CarlaEngineNative :=
  { pData := { curPluginCount := 0, plugins := some [{}, {}, {}, {}] } }

/-- An engine whose chain holds the piano, a disabled plugin and the synth. -/
def sampleSavedEngine : CarlaEngineNative :=
  { pData := { curPluginCount := 3,
               plugins := some [
                 { plugin := some { id := 8, enabled := true, realName := "Piano",
                                    saveState := samplePianoState } },
                 { plugin := some { id := 1, enabled := false, realName := "Off" } },
                 { plugin := some { id := 4, enabled := true, realName := "Synth",
                                    saveState := sampleSynthState } },
                 {}] } }

/-- The snapshot of an SFZ drum kit in its 16-outputs variant. -/
def sampleDrumsState : SaveState :=
  { type := some "SFZ", name := some "Drums", label := some "Drums (16 outs)",
    binary := some "drums.sfz" }

/-- A stand-in whose parser reads every text as a project with one plugin
element, and whose reader reads every element as the drum kit; the type tag
"SFZ" has the number 9. -/
def sampleDrumsExternals : StateExternals :=
  { sampleStateExternals with
    setContent := fun _ =>
      { rootTagName := "CARLA-PROJECT", rootChildren := [{ tagName := "Plugin" }] }
    fillSaveStateFromXmlNode := fun _ => sampleDrumsState
    getPluginTypeFromString := fun type => if type = "SFZ" then 9 else 0 }

end CarlaBackend

namespace DISTRHO

/-! ## The window of the DGL toolkit: visibility (`Window.cpp`) -/

/-- The platform `Window.cpp` is compiled for (`DISTRHO_OS_WINDOWS`,
`DISTRHO_OS_MAC`, `DISTRHO_OS_LINUX`). -/
inductive Platform where
  | windows
  | mac
  | linux
  deriving DecidableEq, Repr

/-- The calls `setVisible()` and `onClose()` make outside the window object,
each tagged with `kSelf` of the window that makes it: the native calls on the
window handle, `kApp->oneShown()`, `kApp->oneHidden()`, and `onClose()` of a
widget (`Widget` and `App::Private` are defined outside `Window.cpp`). -/
inductive WindowCall where
  | ShowWindow (kSelf : Nat) (nCmdShow : String)
  | UpdateWindow (kSelf : Nat)
  | XMapRaised (kSelf : Nat)
  | XUnmapWindow (kSelf : Nat)
  | XFlush (kSelf : Nat)
  | oneShown (kSelf : Nat)
  | oneHidden (kSelf : Nat)
  | widgetOnClose (kSelf : Nat) (widget : Nat)
  deriving DecidableEq, Repr

/-- The fields of `Window::Private` that `setVisible()` and `onClose()` read
or write.  `kSelf` stands for the address of the window, `fChildFocus` is the
window the pointer of that name leads to (`none` for `nullptr`), and
`fWidgets` lists the widgets by address. -/
inductive Window.Private where
  | mk (kSelf : Nat) (fChildFocus : Option Window.Private) (fVisible fClosed : Bool)
      (fWidgets : List Nat)
  deriving Repr

/-- The field `kSelf`. -/
def Window.Private.kSelf : Window.Private → Nat
  | .mk kSelf _ _ _ _ => kSelf

/-- The field `fChildFocus`. -/
def Window.Private.fChildFocus : Window.Private → Option Window.Private
  | .mk _ fChildFocus _ _ _ => fChildFocus

/-- The field `fVisible`. -/
def Window.Private.fVisible : Window.Private → Bool
  | .mk _ _ fVisible _ _ => fVisible

/-- The field `fClosed`. -/
def Window.Private.fClosed : Window.Private → Bool
  | .mk _ _ _ fClosed _ => fClosed

/-- The field `fWidgets`. -/
def Window.Private.fWidgets : Window.Private → List Nat
  | .mk _ _ _ _ fWidgets => fWidgets

/-- `Window::Private::isVisible()`. -/
def Window.Private.isVisible (self : Window.Private) : Bool :=
  self.fVisible

/-- The native calls of `setVisible()` past the early return, per platform. -/
def nativeSetVisible (os : Platform) (kSelf : Nat) (yesNo : Bool) : List WindowCall :=
  match os with
  | .windows =>
    (if yesNo then
      [WindowCall.ShowWindow kSelf "WS_VISIBLE", WindowCall.ShowWindow kSelf "SW_RESTORE"]
    else
      [WindowCall.ShowWindow kSelf "SW_HIDE"]) ++ [WindowCall.UpdateWindow kSelf]
  | .linux =>
    (if yesNo then [WindowCall.XMapRaised kSelf] else [WindowCall.XUnmapWindow kSelf])
      ++ [WindowCall.XFlush kSelf]
  | .mac => []

/-- `Window::Private::setVisible(bool yesNo)`: the window afterwards and the
calls made, in order. -/
def Window.Private.setVisible (os : Platform) (self : Window.Private) (yesNo : Bool) :
    Window.Private × List WindowCall :=
  match self with
  | .mk kSelf fChildFocus fVisible fClosed fWidgets =>
    if fVisible = yesNo then
      (self, [])
    else
      (.mk kSelf fChildFocus yesNo fClosed fWidgets,
        nativeSetVisible os kSelf yesNo
          ++ [if yesNo then WindowCall.oneShown kSelf else WindowCall.oneHidden kSelf])

/-- `Window::Private::show()`. -/
def Window.Private.show (os : Platform) (self : Window.Private) :
    Window.Private × List WindowCall :=
  self.setVisible os true

/-- `Window::Private::hide()`. -/
def Window.Private.hide (os : Platform) (self : Window.Private) :
    Window.Private × List WindowCall :=
  self.setVisible os false

/-- `Window::Private::onClose()`: the flag, then `onClose()` of the focused
child if there is one, then `onClose()` of every widget in list order, then
`hide()`. -/
def Window.Private.onClose (os : Platform) : Window.Private → Window.Private × List WindowCall
  | .mk kSelf none fVisible _ fWidgets =>
    let r := (Window.Private.mk kSelf none fVisible true fWidgets).hide os
    (r.1, fWidgets.map (WindowCall.widgetOnClose kSelf) ++ r.2)
  | .mk kSelf (some child) fVisible _ fWidgets =>
    let c := Window.Private.onClose os child
    let r := (Window.Private.mk kSelf (some c.1) fVisible true fWidgets).hide os
    (r.1, c.2 ++ fWidgets.map (WindowCall.widgetOnClose kSelf) ++ r.2)

/-- A call on a window, of those that touch its visibility. -/
inductive WindowOp where
  | show
  | hide
  | setVisible (yesNo : Bool)
  | onClose
  deriving DecidableEq, Repr

/-- One call on a window: the window afterwards and the calls made. -/
def Window.Private.call (os : Platform) (self : Window.Private) :
    WindowOp → Window.Private × List WindowCall
  | .show => self.show os
  | .hide => self.hide os
  | .setVisible yesNo => self.setVisible os yesNo
  | .onClose => self.onClose os

/-- A sequence of calls on a window: the window afterwards and all the calls
made, in order. -/
def Window.Private.run (os : Platform) :
    Window.Private → List WindowOp → Window.Private × List WindowCall
  | self, [] => (self, [])
  | self, op :: ops =>
    let r := self.call os op
    let rest := Window.Private.run os r.1 ops
    (rest.1, r.2 ++ rest.2)

/-- The addresses of a window and of the windows its chain of focused
children leads to. -/
def Window.Private.focusChain : Window.Private → List Nat
  | .mk kSelf none _ _ _ => [kSelf]
  | .mk kSelf (some child) _ _ _ => kSelf :: Window.Private.focusChain child

/-- The focused children of a window are other windows: its address is not
among those its chain of focused children leads to. -/
def Window.Private.Distinct (self : Window.Private) : Prop :=
  self.kSelf ∉ self.focusChain.tail

instance (self : Window.Private) : Decidable self.Distinct :=
  inferInstanceAs (Decidable (self.kSelf ∉ self.focusChain.tail))

/-- The number of calls `kApp->oneShown()` a window made in a trace. -/
def shownCount (kSelf : Nat) (trace : List WindowCall) : Nat :=
  trace.count (WindowCall.oneShown kSelf)

/-- The number of calls `kApp->oneHidden()` a window made in a trace. -/
def hiddenCount (kSelf : Nat) (trace : List WindowCall) : Nat :=
  trace.count (WindowCall.oneHidden kSelf)

/-- A visible dialog with one widget, focused child of the main window. -/
def sampleDialog : Window.Private :=
  .mk 2 none true false [21]

/-- A main window, hidden, with two widgets and the dialog as focused child. -/
def sampleMainWindow : Window.Private :=
  .mk 1 (some sampleDialog) false false [11, 12]

end DISTRHO

namespace CarlaBackend

/-- A stand-in for the plugin loader that tells the variants apart: asked with
the hint "true" it builds the multi-output variant, whose real name says so. -/
def sampleVariantInstantiate : Nat → Option String → Option String → Option String →
    Option String → Option CarlaPlugin :=
  fun ptype _ name _ extra =>
    some { id := ptype, enabled := true,
           realName := name.getD "" ++ (if extra = some "true" then " [16 outs]" else "") }

/-- The stand-in for the code outside `CarlaEngineNative.cpp`, with the loader
that tells the variants apart. -/
def sampleVariantExternals : StateExternals :=
  { sampleStateExternals with addPlugin := addPlugin sampleVariantInstantiate }

/-- C1: with an empty chain in rack mode, `process()` leaves the first
`frames` samples of output channel 0 equal to input channel 0 and those of
output channel 1 equal to input channel 1, whatever MIDI events come in. -/
theorem process_empty_rack_is_passthrough (x : Externals) (pHost : NativeHostDescriptor)
    (self : CarlaEngineNative) (in0 in1 out0 out1 : AudioBuffer) (frames : Nat)
    (midiEvents : List NativeMidiEvent) (midiEvent : NativeMidiEvent)
    (hEmpty : self.pData.curPluginCount = 0) (hRack : self.fIsPatchbay = false)
    (i : Nat) (hi : i < frames) :
    (self.process x pHost in0 in1 out0 out1 frames midiEvents midiEvent).out0 i = in0 i ∧
    (self.process x pHost in0 in1 out0 out1 frames midiEvents midiEvent).out1 i = in1 i := by
  simp [CarlaEngineNative.process, hEmpty, hRack, FLOAT_COPY, hi]

/-- C1 at a concrete block: four frames, empty chain, one MIDI event. -/
theorem process_empty_rack_is_passthrough_witness :
    (({} : CarlaEngineNative).process sampleExternals {} sampleInput sampleSilence
        sampleSilence sampleInput 4 [sampleNoteOn] {}).out0 2 = sampleInput 2 ∧
    (({} : CarlaEngineNative).process sampleExternals {} sampleInput sampleSilence
        sampleSilence sampleInput 4 [sampleNoteOn] {}).out1 2 = sampleSilence 2 :=
  process_empty_rack_is_passthrough sampleExternals {} {} sampleInput sampleSilence
    sampleSilence sampleInput 4 [sampleNoteOn] {} rfl rfl 2 (by decide)

/-- C2 (as stated, refuted): on a chain whose slot 0 is empty and whose slot 1
holds an enabled plugin, the first present and enabled entry is slot 1's
plugin, but `_getFirstPlugin` returns absent. -/
theorem getFirstPlugin_skips_later_slots :
    firstEnabledPlugin sampleGapEngine.pData = some samplePlugin ∧
    sampleGapEngine._getFirstPlugin = none := by
  decide

/-- C2 (amended): `_getFirstPlugin` looks at slot 0 only.  It returns a plugin
exactly when the chain is non-empty, the slot array exists, and slot 0 holds
that plugin and it is enabled; in that case the plugin is also the first
present and enabled entry of the chain.  In every other case it returns
absent. -/
theorem getFirstPlugin_is_slot_zero (self : CarlaEngineNative) (p : CarlaPlugin) :
    (self._getFirstPlugin = some p ↔
      self.pData.curPluginCount ≠ 0 ∧
      ∃ plugins, self.pData.plugins = some plugins ∧
        (plugins.getD 0 {}).plugin = some p ∧ p.isEnabled = true) ∧
    (self._getFirstPlugin = some p → firstEnabledPlugin self.pData = some p) := by
  obtain ⟨⟨count, plugins, ti, bi, bo⟩, pb, act, run, ui⟩ := self
  have key : (CarlaEngineNative._getFirstPlugin
        ⟨⟨count, plugins, ti, bi, bo⟩, pb, act, run, ui⟩ = some p ↔
      count ≠ 0 ∧ ∃ l, plugins = some l ∧ (l.getD 0 {}).plugin = some p ∧
        p.isEnabled = true) := by
    unfold CarlaEngineNative._getFirstPlugin
    cases plugins with
    | none => simp
    | some l =>
      by_cases hc : count = 0
      · simp [hc]
      · simp only [hc, Option.getD_some, false_or, reduceCtorEq, if_false, ne_eq,
          not_false_eq_true, true_and, Option.some.injEq, exists_eq_left']
        generalize (l.getD 0 {}).plugin = o
        cases o with
        | none => simp
        | some q =>
          by_cases hq : q.isEnabled = true
          · simp only [hq, Bool.not_true, Bool.false_eq_true, if_false, Option.some.injEq]
            constructor
            · intro h; subst h; exact ⟨rfl, hq⟩
            · intro h; exact h.1
          · simp only [Bool.not_eq_true] at hq
            simp only [hq, Bool.not_false, if_true, reduceCtorEq, Option.some.injEq, false_iff,
              not_and, Bool.not_eq_true]
            intro h; subst h; exact hq
  refine ⟨key, fun h => ?_⟩
  obtain ⟨hc, l, hl, hp, he⟩ := key.mp h
  simp only [firstEnabledPlugin, hl, Option.getD_some]
  obtain ⟨n, rfl⟩ := Nat.exists_eq_succ_of_ne_zero hc
  cases l with
  | nil => simp [EnginePluginData.plugin] at hp
  | cons s rest =>
    simp only [List.getD_cons_zero] at hp
    simp [List.take_succ_cons, List.findSome?_cons, hp, Option.filter, he]

/-- C2 (amended), at a concrete chain: slot 0 holds an enabled plugin. -/
theorem getFirstPlugin_is_slot_zero_witness :
    sampleRackEngine._getFirstPlugin = some samplePlugin ∧
    firstEnabledPlugin sampleRackEngine.pData = some samplePlugin :=
  ⟨by decide,
   (getFirstPlugin_is_slot_zero sampleRackEngine samplePlugin).2 (by decide)⟩

/-- C3: for every stored UI state, `getAndResetUiState` returns that state and
leaves the stored state `UiNone` (nothing else of the object changes), so a
second call right after it returns `UiNone`. -/
theorem getAndResetUiState_returns_then_none (ui : CarlaEngineNativeUI) :
    ui.getAndResetUiState.1 = ui.fUiState ∧
    ui.getAndResetUiState.2 = { ui with fUiState := UiState.UiNone } ∧
    ui.getAndResetUiState.2.fUiState = UiState.UiNone ∧
    ui.getAndResetUiState.2.getAndResetUiState.1 = UiState.UiNone := by
  simp [CarlaEngineNativeUI.getAndResetUiState]

/-- The input loop, started at the end of the filled prefix `pre` of a buffer
whose next `n` slots are zeroed, fills as many of those slots as there are
events, in order, and leaves the rest of the buffer as it was. -/
theorem eventsInputLoop_fills (x : Externals) (midiEvents : List NativeMidiEvent) :
    ∀ (pre : List EngineEvent) (n : Nat) (post : List EngineEvent),
      pre.length + n = x.kEngineMaxInternalEventCount →
      eventsInputLoop x midiEvents pre.length
          (pre ++ (List.replicate n EngineEvent.zero ++ post))
        = pre ++ ((midiEvents.take n).map (inboundEvent x) ++
            (List.replicate (n - midiEvents.length) EngineEvent.zero ++ post)) := by
  induction midiEvents with
  | nil => intro pre n post _; simp [eventsInputLoop]
  | cons m rest ih =>
    intro pre n post hK
    cases n with
    | zero =>
      have : ¬ pre.length < x.kEngineMaxInternalEventCount := by omega
      simp [eventsInputLoop, this]
    | succ k =>
      have hlt : pre.length < x.kEngineMaxInternalEventCount := by omega
      have hget : (pre ++ (List.replicate (k + 1) EngineEvent.zero ++ post)).getD pre.length
          EngineEvent.zero = EngineEvent.zero := by
        rw [List.getD_eq_getElem?_getD, List.getElem?_append_right (le_refl _)]
        simp [List.replicate_succ]
      have hset : (pre ++ (List.replicate (k + 1) EngineEvent.zero ++ post)).set pre.length
          (inboundEvent x m)
            = (pre ++ [inboundEvent x m]) ++ (List.replicate k EngineEvent.zero ++ post) := by
        simp [List.set_append_right, List.replicate_succ]
      have hstep : x.fillFromMidiData
          { (pre ++ (List.replicate (k + 1) EngineEvent.zero ++ post)).getD pre.length
              EngineEvent.zero with time := m.time } m.size m.data = inboundEvent x m := by
        rw [hget]; rfl
      rw [eventsInputLoop, if_pos hlt]
      simp only [hstep, hset]
      by_cases hfull : pre.length + 1 ≥ x.kEngineMaxInternalEventCount
      · have hk : k = 0 := by omega
        subst hk
        simp [hfull]
      · rw [if_neg hfull]
        have := ih (pre ++ [inboundEvent x m]) k post (by simp; omega)
        simp only [List.length_append, List.length_singleton] at this
        rw [this]
        simp [List.take_succ_cons, Nat.succ_sub_succ]

/-- The first `kEngineMaxInternalEventCount` slots of the inbound buffer after
the inbound translation, and the slots beyond them. -/
theorem processInput_bufEventsIn (x : Externals) (pHost : NativeHostDescriptor)
    (pData : ProtectedData) (midiEvents : List NativeMidiEvent) :
    (processInput x pHost pData midiEvents).bufEventsIn.take x.kEngineMaxInternalEventCount
      = (midiEvents.take x.kEngineMaxInternalEventCount).map (inboundEvent x)
        ++ List.replicate (x.kEngineMaxInternalEventCount - midiEvents.length) EngineEvent.zero ∧
    (processInput x pHost pData midiEvents).bufEventsIn.drop x.kEngineMaxInternalEventCount
      = pData.bufEventsIn.drop x.kEngineMaxInternalEventCount := by
  have h := eventsInputLoop_fills x midiEvents [] x.kEngineMaxInternalEventCount
    (pData.bufEventsIn.drop x.kEngineMaxInternalEventCount) (by simp)
  simp only [List.length_nil, List.nil_append] at h
  have hlen : ((midiEvents.take x.kEngineMaxInternalEventCount).map (inboundEvent x) ++
      List.replicate (x.kEngineMaxInternalEventCount - midiEvents.length) EngineEvent.zero).length
      = x.kEngineMaxInternalEventCount := by
    simp; omega
  constructor
  · simp only [processInput, carla_zeroStruct, h]
    rw [← List.append_assoc, List.take_left' hlen]
  · simp only [processInput, carla_zeroStruct, h]
    rw [← List.append_assoc, List.drop_left' hlen]

/-- C4: on the full path of `process()`, after the inbound translation the
first `kEngineMaxInternalEventCount` slots of the inbound buffer are the
translations of the first min(midiEventCount, capacity) external events, in
order, each a zeroed slot given the event's time and filled from its size and
bytes, followed by zeroed (Null-typed) slots only; events beyond the capacity
leave no trace, and slots beyond the capacity are untouched.  When the
filling leaves the time of the slot alone, the filled slots carry the times
of the external events in order.  In rack mode with a non-empty chain this is
the engine data the processing function is called on. -/
theorem processInput_fills_inbound_buffer (x : Externals) (pHost : NativeHostDescriptor)
    (self : CarlaEngineNative) (in0 in1 out0 out1 : AudioBuffer) (frames : Nat)
    (midiEvents : List NativeMidiEvent) (midiEvent : NativeMidiEvent)
    (hFull : ¬ (self.pData.curPluginCount = 0 ∧ self.fIsPatchbay = false)) :
    ((processInput x pHost self.pData midiEvents).bufEventsIn.take x.kEngineMaxInternalEventCount
      = (midiEvents.take x.kEngineMaxInternalEventCount).map
          (fun m => x.fillFromMidiData { EngineEvent.zero with time := m.time } m.size m.data)
        ++ List.replicate (x.kEngineMaxInternalEventCount - midiEvents.length) EngineEvent.zero) ∧
    (midiEvents.take x.kEngineMaxInternalEventCount).length
      = min midiEvents.length x.kEngineMaxInternalEventCount ∧
    EngineEvent.zero.type = kEngineEventTypeNull ∧
    (processInput x pHost self.pData midiEvents).bufEventsIn.drop x.kEngineMaxInternalEventCount
      = self.pData.bufEventsIn.drop x.kEngineMaxInternalEventCount ∧
    ((∀ e size data, (x.fillFromMidiData e size data).time = e.time) →
      ((processInput x pHost self.pData midiEvents).bufEventsIn.take
          (min midiEvents.length x.kEngineMaxInternalEventCount)).map EngineEvent.time
        = (midiEvents.take x.kEngineMaxInternalEventCount).map NativeMidiEvent.time) ∧
    (self.fIsPatchbay = false →
      (self.process x pHost in0 in1 out0 out1 frames midiEvents midiEvent).out0
        = (x.processRack (processInput x pHost self.pData midiEvents) in0 in1 out0 out1 frames
            pHost.is_offline).out0 ∧
      (self.process x pHost in0 in1 out0 out1 frames midiEvents midiEvent).out1
        = (x.processRack (processInput x pHost self.pData midiEvents) in0 in1 out0 out1 frames
            pHost.is_offline).out1) := by
  have hcond : ¬ (self.pData.curPluginCount = 0 ∧ (! self.fIsPatchbay) = true) := by
    simpa using hFull
  obtain ⟨h1, h2⟩ := processInput_bufEventsIn x pHost self.pData midiEvents
  refine ⟨h1, by simp [Nat.min_comm], rfl, h2, fun hT => ?_, fun hR => ?_⟩
  · have hmin : min midiEvents.length x.kEngineMaxInternalEventCount
        ≤ x.kEngineMaxInternalEventCount := Nat.min_le_right _ _
    have hA : ((midiEvents.take x.kEngineMaxInternalEventCount).map (inboundEvent x)).length
        = min midiEvents.length x.kEngineMaxInternalEventCount := by
      simp [Nat.min_comm]
    have htake : (processInput x pHost self.pData midiEvents).bufEventsIn.take
          (min midiEvents.length x.kEngineMaxInternalEventCount)
        = ((processInput x pHost self.pData midiEvents).bufEventsIn.take
            x.kEngineMaxInternalEventCount).take
              (min midiEvents.length x.kEngineMaxInternalEventCount) := by
      rw [List.take_take, Nat.min_eq_left hmin]
    rw [htake, h1, List.take_left' hA, List.map_map]
    apply List.map_congr_left
    intro m _
    simp [inboundEvent, hT]
  · simp only [CarlaEngineNative.process, if_neg hcond]
    simp [processAudio, hR]

/-- C4 at a concrete block: capacity three, four events coming in; the first
three fill the buffer in order and the fourth is dropped. -/
theorem processInput_fills_inbound_buffer_witness :
    (processInput sampleExternals sampleHost sampleBusyEngine.pData
        [sampleNoteOn, sampleNoteOff, sampleNoteOn, sampleNoteOff]).bufEventsIn.take 3
      = [fillFromMidiData { EngineEvent.zero with time := 5 } 3 sampleNoteOn.data,
         fillFromMidiData { EngineEvent.zero with time := 9 } 3 sampleNoteOff.data,
         fillFromMidiData { EngineEvent.zero with time := 5 } 3 sampleNoteOn.data] :=
  (processInput_fills_inbound_buffer sampleExternals sampleHost sampleBusyEngine sampleInput
    sampleInput sampleSilence sampleSilence 4
    [sampleNoteOn, sampleNoteOff, sampleNoteOn, sampleNoteOff] {} (by decide)).1

/-- The byte copy of the output loop never writes byte 0. -/
theorem copyMidiData_get_zero (size : Nat) (src dst : MidiData) (hS : size ≤ 4) :
    (copyMidiData size src dst).get 0 = dst.get 0 := by
  interval_cases size <;> simp [copyMidiData, List.range', MidiData.get, MidiData.set]

/-- The byte copy of the output loop writes bytes 1 to `size - 1` from the source. -/
theorem copyMidiData_get (size : Nat) (src dst : MidiData) (hS : size ≤ 4) (j : Nat)
    (h1 : 1 ≤ j) (h2 : j < size) : (copyMidiData size src dst).get j = src.get j := by
  interval_cases size <;> interval_cases j <;>
    simp [copyMidiData, List.range', MidiData.get, MidiData.set]

/-- One iteration over a delivered entry writes its translation; the time and
port the local held before play no part. -/
theorem eventsOutputStep_delivered (x : Externals) (e : EngineEvent) (m prev : NativeMidiEvent)
    (hD : isDelivered e = true) (hsize : m.size = prev.size) (hdata : m.data = prev.data) :
    eventsOutputStep x e m = (translate x e prev, true) := by
  simp only [isDelivered, decide_eq_true_eq] at hD
  unfold eventsOutputStep translate
  by_cases hC : e.type = kEngineEventTypeControl
  · simp [hC, hsize, hdata]
  · have hM := hD.resolve_left hC
    have hgt : ¬ (e.midi.size > 4 ∨ e.midi.dataExt ≠ none) := by
      simp [hM.2.2]; exact hM.2.1
    simp only [if_neg hC, if_pos hM.1, if_neg hgt, hdata]

/-- One iteration over an entry that is neither the terminator nor delivered
only overwrites the time of the local and writes nothing. -/
theorem eventsOutputStep_skipped (x : Externals) (e : EngineEvent) (m : NativeMidiEvent)
    (hD : isDelivered e = false) :
    eventsOutputStep x e m = ({ m with time := e.time }, false) := by
  have hD' : ¬ (e.type = kEngineEventTypeControl ∨
      (e.type = kEngineEventTypeMidi ∧ e.midi.size ≤ 4 ∧ e.midi.dataExt = none)) := by
    simpa [isDelivered] using hD
  have hC : ¬ e.type = kEngineEventTypeControl := fun h => hD' (Or.inl h)
  unfold eventsOutputStep
  by_cases hM : e.type = kEngineEventTypeMidi
  · have hgt : e.midi.size > 4 ∨ e.midi.dataExt ≠ none := by
      by_contra hcon
      simp only [not_or, not_lt, ne_eq, not_not] at hcon
      exact hD' (Or.inr ⟨hM, hcon.1, hcon.2⟩)
    simp only [if_neg hC, if_pos hM, if_pos hgt]
  · simp only [if_neg hC, if_neg hM]

/-- The output loop delivers, in order, the translations of the delivered
entries that precede the first Null-typed entry. -/
theorem eventsOutputLoop_eq_translations (x : Externals) (l : List EngineEvent) :
    ∀ (m prev : NativeMidiEvent), m.size = prev.size → m.data = prev.data →
      eventsOutputLoop x l m
        = translations x
            ((l.takeWhile fun e => decide (e.type ≠ kEngineEventTypeNull)).filter isDelivered)
            prev := by
  induction l with
  | nil => intro m prev _ _; simp [eventsOutputLoop, translations]
  | cons e rest ih =>
    intro m prev hsize hdata
    by_cases hN : e.type = kEngineEventTypeNull
    · simp [eventsOutputLoop, hN, translations]
    · have hN' : decide (e.type ≠ kEngineEventTypeNull) = true := by simpa using hN
      rw [eventsOutputLoop, if_neg hN, List.takeWhile_cons, if_pos hN']
      cases hD : isDelivered e with
      | true =>
        rw [eventsOutputStep_delivered x e m prev hD hsize hdata]
        simp only [if_true, List.filter_cons, hD, translations]
        rw [ih (translate x e prev) (translate x e prev) rfl rfl]
      | false =>
        rw [eventsOutputStep_skipped x e m hD]
        simp only [Bool.false_eq_true, if_false, List.filter_cons, hD]
        exact ih _ prev hsize hdata

/-- C5: for every content of the outbound buffer, the events handed to
`write_midi_event` by the output block are, in buffer order, the translations
of exactly those entries of the first `kEngineMaxInternalEventCount` slots
that precede the first Null-typed entry and are Control-typed, or Midi-typed
with at most four bytes and no extended data; every other entry before the
terminator is passed over and nothing from the terminator on is delivered.
On the full path of `process()` these deliveries, followed by the final
`runPendingRtEvents`, are the whole call trace. -/
theorem eventsOutput_delivers_translations (x : Externals) (pHost : NativeHostDescriptor)
    (self : CarlaEngineNative) (in0 in1 out0 out1 : AudioBuffer) (frames : Nat)
    (midiEvents : List NativeMidiEvent) (midiEvent : NativeMidiEvent)
    (hFull : ¬ (self.pData.curPluginCount = 0 ∧ self.fIsPatchbay = false)) :
    (∀ (bufEventsOut : List EngineEvent) (scratch : NativeMidiEvent),
      eventsOutput x bufEventsOut scratch
        = translations x
            (((bufEventsOut.take x.kEngineMaxInternalEventCount).takeWhile
                fun e => decide (e.type ≠ kEngineEventTypeNull)).filter isDelivered)
            scratch) ∧
    (self.process x pHost in0 in1 out0 out1 frames midiEvents midiEvent).trace
      = (eventsOutput x
          (processAudio x pHost self.fIsPatchbay (processInput x pHost self.pData midiEvents)
            in0 in1 out0 out1 frames).bufEventsOut midiEvent).map Call.write_midi_event
        ++ [Call.runPendingRtEvents] := by
  have hcond : ¬ (self.pData.curPluginCount = 0 ∧ (! self.fIsPatchbay) = true) := by
    simpa using hFull
  refine ⟨fun buf scratch => ?_, ?_⟩
  · exact eventsOutputLoop_eq_translations x _ scratch scratch rfl rfl
  · simp only [CarlaEngineNative.process, if_neg hcond]

/-- C5 at a concrete block: capacity three, a rack that echoes the inbound
events; the two inbound notes are delivered in order, then the pending work
runs. -/
theorem eventsOutput_delivers_translations_witness :
    ¬ (sampleBusyEngine.pData.curPluginCount = 0 ∧ sampleBusyEngine.fIsPatchbay = false) ∧
    (sampleBusyEngine.process sampleExternals sampleHost sampleInput sampleInput sampleSilence
        sampleSilence 4 [sampleNoteOn, sampleNoteOff] {}).trace
      = [Call.write_midi_event sampleNoteOn, Call.write_midi_event sampleNoteOff,
         Call.runPendingRtEvents] :=
  ⟨by decide,
   (eventsOutput_delivers_translations sampleExternals sampleHost sampleBusyEngine sampleInput
      sampleInput sampleSilence sampleSilence 4 [sampleNoteOn, sampleNoteOff] {}
      (by decide)).2.trans (by decide)⟩

/-- C6: a Midi-typed outbound entry with at most four bytes and no extended
data is delivered as an external event with the same time, port and size;
its first data byte is (data[0] + channel) modulo 256 and its bytes 1 to
size - 1 are those of the entry. -/
theorem eventsOutput_midi_event (x : Externals) (e : EngineEvent) (rest : List EngineEvent)
    (prev : NativeMidiEvent) (hT : e.type = kEngineEventTypeMidi) (hS : e.midi.size ≤ 4)
    (hE : e.midi.dataExt = none) :
    ∃ m, eventsOutputLoop x (e :: rest) prev = m :: eventsOutputLoop x rest m ∧
      m.time = e.time ∧ m.port = e.midi.port ∧ m.size = e.midi.size ∧
      m.data.get 0 = (e.midi.data.get 0 + e.channel) % 256 ∧
      ∀ j, 1 ≤ j → j < e.midi.size → m.data.get j = e.midi.data.get j := by
  have hD : isDelivered e = true := by simp [isDelivered, hT, hS, hE]
  have hN : ¬ e.type = kEngineEventTypeNull := by simp [hT, kEngineEventTypeMidi, kEngineEventTypeNull]
  have hC : ¬ e.type = kEngineEventTypeControl := by
    simp [hT, kEngineEventTypeMidi, kEngineEventTypeControl]
  refine ⟨translate x e prev, ?_, ?_⟩
  · rw [eventsOutputLoop, if_neg hN, eventsOutputStep_delivered x e prev prev hD rfl rfl]
    simp
  · simp only [translate, if_neg hC, true_and]
    refine ⟨?_, fun j h1 h2 => copyMidiData_get _ _ _ hS j h1 h2⟩
    rw [copyMidiData_get_zero _ _ _ hS]
    simp [MidiData.get, MidiData.set]

/-- C6 at a concrete entry: status 144 on channel 1 goes out as 145. -/
theorem eventsOutput_midi_event_witness :
    ∃ m, eventsOutputLoop sampleExternals [sampleOutboundNote] {} =
        m :: eventsOutputLoop sampleExternals [] m ∧
      m.time = 7 ∧ m.port = 0 ∧ m.size = 3 ∧ m.data.get 0 = (144 + 1) % 256 ∧
      ∀ j, 1 ≤ j → j < 3 → m.data.get j = sampleOutboundNote.midi.data.get j :=
  eventsOutput_midi_event sampleExternals sampleOutboundNote [] {} rfl (by decide) rfl

/-- With the inbound filling as the specification words it, the translation
back of the internal event made from a well-formed external event has the
same time, channel and bytes as that event. -/
theorem translate_inboundEvent_content (x : Externals)
    (hfill : x.fillFromMidiData = fillFromMidiData) (m prev : NativeMidiEvent)
    (hwf : m.WellFormed) :
    isDelivered (inboundEvent x m) = true ∧
    (inboundEvent x m).type ≠ kEngineEventTypeNull ∧
    (translate x (inboundEvent x m) prev).content = m.content := by
  obtain ⟨hS, hb0, -⟩ := hwf
  have hC : ¬ kEngineEventTypeMidi = kEngineEventTypeControl := by decide
  have h0 : (copyMidiData m.size m.data
      (prev.data.set 0 ((m.data.get 0 + EngineEvent.zero.channel) % 256))).get 0 = m.data.get 0 := by
    rw [copyMidiData_get_zero _ _ _ hS]
    simp [MidiData.get, MidiData.set, EngineEvent.zero, Nat.mod_eq_of_lt hb0]
  refine ⟨?_, ?_, ?_⟩
  · simp [isDelivered, inboundEvent, hfill, fillFromMidiData, hS, EngineEvent.zero]
  · simp [inboundEvent, hfill, fillFromMidiData, kEngineEventTypeMidi, kEngineEventTypeNull]
  · simp only [translate, inboundEvent, hfill, fillFromMidiData, if_neg hC,
      NativeMidiEvent.content, h0, Prod.mk.injEq, true_and]
    apply List.map_congr_left
    intro j hj
    have hj' : j < m.size := List.mem_range.mp hj
    rcases Nat.eq_zero_or_pos j with rfl | hpos
    · exact h0
    · exact copyMidiData_get _ _ _ hS j hpos hj'

/-- With the inbound filling as the specification words it, the output loop
run over translated well-formed events followed by zeroed slots hands back
events with the same times, channels and bytes, in the same order. -/
theorem eventsOutputLoop_inboundEvents (x : Externals)
    (hfill : x.fillFromMidiData = fillFromMidiData) (n : Nat) (ms : List NativeMidiEvent) :
    (∀ m ∈ ms, m.WellFormed) → ∀ scratch : NativeMidiEvent,
      (eventsOutputLoop x (ms.map (inboundEvent x) ++ List.replicate n EngineEvent.zero)
        scratch).map NativeMidiEvent.content = ms.map NativeMidiEvent.content := by
  induction ms with
  | nil =>
    intro _ scratch
    cases n with
    | zero => simp [eventsOutputLoop]
    | succ k => simp [List.replicate_succ, eventsOutputLoop, EngineEvent.zero, kEngineEventTypeNull]
  | cons m rest ih =>
    intro hwf scratch
    obtain ⟨hD, hN, hc⟩ := translate_inboundEvent_content x hfill m scratch
      (hwf m (List.mem_cons_self _ _))
    rw [List.map_cons, List.cons_append, eventsOutputLoop, if_neg hN,
      eventsOutputStep_delivered x _ scratch scratch hD rfl rfl]
    simp only [if_true, List.map_cons, hc]
    rw [ih (fun m' hm' => hwf m' (List.mem_cons_of_mem _ hm'))]

/-- C7: with `fillFromMidiData` as the specification words it, for every
sequence of well-formed external MIDI events that fits the internal capacity,
translating it into the inbound buffer and translating that buffer back with
the outbound loop hands the host the same ordered sequence of time, channel
and bytes. -/
theorem inbound_outbound_round_trip (x : Externals)
    (hfill : x.fillFromMidiData = fillFromMidiData) (pHost : NativeHostDescriptor)
    (pData : ProtectedData) (midiEvents : List NativeMidiEvent) (scratch : NativeMidiEvent)
    (hlen : midiEvents.length ≤ x.kEngineMaxInternalEventCount)
    (hwf : ∀ m ∈ midiEvents, m.WellFormed) :
    (eventsOutput x (processInput x pHost pData midiEvents).bufEventsIn scratch).map
        NativeMidiEvent.content
      = midiEvents.map NativeMidiEvent.content := by
  unfold eventsOutput
  rw [(processInput_bufEventsIn x pHost pData midiEvents).1, List.take_of_length_le hlen]
  exact eventsOutputLoop_inboundEvents x hfill _ midiEvents hwf scratch

/-- C7 at a concrete block: capacity three, a note-on and a note-off. -/
theorem inbound_outbound_round_trip_witness :
    [sampleNoteOn, sampleNoteOff].length ≤ sampleExternals.kEngineMaxInternalEventCount ∧
    (∀ m ∈ [sampleNoteOn, sampleNoteOff], m.WellFormed) ∧
    (eventsOutput sampleExternals
        (processInput sampleExternals sampleHost sampleBusyEngine.pData
          [sampleNoteOn, sampleNoteOff]).bufEventsIn {}).map NativeMidiEvent.content
      = [(5, 1, [145, 60, 100]), (9, 1, [129, 60, 0])] :=
  ⟨by decide, by decide,
   (inbound_outbound_round_trip sampleExternals rfl sampleHost sampleBusyEngine.pData
      [sampleNoteOn, sampleNoteOff] {} (by decide) (by decide)).trans (by decide)⟩

/-- C8: on the full path of `process()`, the engine's time info afterwards is
the one the processing function was handed, and it has
`playing`, `frame` and `usecs` equal to the host's; its `valid` mask is
`kValidBBT` when the host marks BBT valid and 0 otherwise; when BBT is valid
the eight BBT fields equal the host's, and when it is not the engine's BBT
fields keep their previous values. -/
theorem process_snapshots_time_info (x : Externals) (pHost : NativeHostDescriptor)
    (self : CarlaEngineNative) (in0 in1 out0 out1 : AudioBuffer) (frames : Nat)
    (midiEvents : List NativeMidiEvent) (midiEvent : NativeMidiEvent)
    (hFull : ¬ (self.pData.curPluginCount = 0 ∧ self.fIsPatchbay = false)) :
    let t := (self.process x pHost in0 in1 out0 out1 frames midiEvents midiEvent).engine.pData.timeInfo
    let h := pHost.get_time_info
    t = (processInput x pHost self.pData midiEvents).timeInfo ∧
    t.playing = h.playing ∧ t.frame = h.frame ∧ t.usecs = h.usecs ∧
    t.valid = (if h.bbt.valid then kValidBBT else 0) ∧
    (h.bbt.valid = true →
      t.bbt.bar = h.bbt.bar ∧ t.bbt.beat = h.bbt.beat ∧ t.bbt.tick = h.bbt.tick ∧
      t.bbt.barStartTick = h.bbt.barStartTick ∧ t.bbt.beatsPerBar = h.bbt.beatsPerBar ∧
      t.bbt.beatType = h.bbt.beatType ∧ t.bbt.ticksPerBeat = h.bbt.ticksPerBeat ∧
      t.bbt.beatsPerMinute = h.bbt.beatsPerMinute) ∧
    (h.bbt.valid = false → t.bbt = self.pData.timeInfo.bbt) := by
  have hcond : ¬ (self.pData.curPluginCount = 0 ∧ (! self.fIsPatchbay) = true) := by
    simpa using hFull
  simp only [CarlaEngineNative.process, if_neg hcond, CarlaEngineNative.runPendingRtEvents,
    processInput]
  cases hv : pHost.get_time_info.bbt.valid <;> simp [processTimeInfo, hv]

/-- C8 at a concrete block: the host reports a rolling transport with valid
BBT at bar 3, beat 2; the engine had other values before. -/
theorem process_snapshots_time_info_witness :
    (sampleBusyEngine.process sampleExternals sampleHost sampleInput sampleInput sampleSilence
      sampleSilence 4 [sampleNoteOn] {}).engine.pData.timeInfo.frame = 4800 ∧
    (sampleBusyEngine.process sampleExternals sampleHost sampleInput sampleInput sampleSilence
      sampleSilence 4 [sampleNoteOn] {}).engine.pData.timeInfo.valid = kValidBBT ∧
    (sampleBusyEngine.process sampleExternals sampleHost sampleInput sampleInput sampleSilence
      sampleSilence 4 [sampleNoteOn] {}).engine.pData.timeInfo.bbt.bar = 3 :=
  have h := process_snapshots_time_info sampleExternals sampleHost sampleBusyEngine sampleInput
    sampleInput sampleSilence sampleSilence 4 [sampleNoteOn] {} (by decide)
  ⟨h.2.2.1, h.2.2.2.2.1, (h.2.2.2.2.2.1 rfl).1⟩

/-- C9: whatever the UI state was, handling an inbound `exiting` message calls
`waitChildClose` (the child is reaped), makes no engine call and stores
`UiHide`; the next `getAndResetUiState` returns `UiHide` and the one after it
returns `UiNone`. -/
theorem msgReceived_exiting_hides (hasPlugin : Int → Bool) (ui : CarlaEngineNativeUI) :
    let r := ui.msgReceived hasPlugin "exiting"
    r.1.pipe = ui.pipe.waitChildClose ∧ r.1.pipe.child = none ∧ r.2 = [] ∧
    r.1.fUiState = UiState.UiHide ∧
    r.1.getAndResetUiState.1 = UiState.UiHide ∧
    r.1.getAndResetUiState.2.getAndResetUiState.1 = UiState.UiNone := by
  simp [CarlaEngineNativeUI.msgReceived, CarlaEngineNativeUI.getAndResetUiState,
    CarlaPipeServer.waitChildClose]

/-- C10 (as stated, refuted): `start()` on a fresh session, whose state is
`UiNone`, leaves the stored state `UiNone`, not `UiShow`. -/
theorem start_does_not_store_shown :
    ({} : CarlaEngineNativeUI).fUiState = UiState.UiNone ∧
    ({} : CarlaEngineNativeUI).start.fUiState = UiState.UiNone ∧
    ({} : CarlaEngineNativeUI).start.fUiState ≠ UiState.UiShow := by
  decide

/-- C10 (amended): `start()` launches the child with the stored file name,
sample rate and title and writes the `show` message after whatever was
written before; it does not touch the stored UI state. -/
theorem start_launches_and_keeps_state (ui : CarlaEngineNativeUI) :
    ui.start.fUiState = ui.fUiState ∧
    ui.start.pipe.child = some (ui.fFilename, ui.fSampleRate, ui.fUiTitle) ∧
    ui.start.pipe.written = ui.pipe.written ++ ["show\n"] := by
  simp [CarlaEngineNativeUI.start, CarlaPipeServer.start, CarlaPipeServer.writeMsg]

/-- A message other than `exiting` leaves the stored UI state as it was. -/
theorem msgReceived_fUiState_of_ne (hasPlugin : Int → Bool) (ui : CarlaEngineNativeUI)
    (msg : String) (hne : msg ≠ "exiting") :
    (ui.msgReceived hasPlugin msg).1.fUiState = ui.fUiState := by
  unfold CarlaEngineNativeUI.msgReceived
  simp only [hne, if_false]
  repeat' split
  all_goals rfl

/-- Handling a message stores nothing but `UiHide`. -/
theorem msgReceived_storedFrom (hasPlugin : Int → Bool) (ui : CarlaEngineNativeUI)
    (msg : String) :
    UiState.StoredFrom ui.fUiState (ui.msgReceived hasPlugin msg).1.fUiState := by
  by_cases h : msg = "exiting"
  · subst h
    exact Or.inr (Or.inr (by simp [CarlaEngineNativeUI.msgReceived]))
  · exact Or.inl (msgReceived_fUiState_of_ne hasPlugin ui msg h)

/-- The stored values reachable from `s0` are closed under further steps. -/
theorem storedFrom_trans {s0 s1 s2 : UiState} (h1 : UiState.StoredFrom s0 s1)
    (h2 : UiState.StoredFrom s1 s2) : UiState.StoredFrom s0 s2 := by
  unfold UiState.StoredFrom at *
  rcases h2 with h | h | h
  · rw [h]; exact h1
  · exact Or.inr (Or.inl h)
  · exact Or.inr (Or.inr h)

/-- Polling the channel stores nothing but `UiHide`. -/
theorem idleLoop_storedFrom (hasPlugin : List EngineCall → Int → Bool) (fuel : Nat) :
    ∀ (ui : CarlaEngineNativeUI) (calls : List EngineCall),
      UiState.StoredFrom ui.fUiState
        (CarlaEngineNativeUI.idleLoop hasPlugin fuel ui calls).1.fUiState := by
  induction fuel with
  | zero => intro ui calls; exact Or.inl rfl
  | succ n ih =>
    intro ui calls
    unfold CarlaEngineNativeUI.idleLoop
    cases hr : ui.pipe.readline with
    | mk line p =>
      cases line with
      | none => exact Or.inl rfl
      | some msg =>
        simp only
        have h1 := msgReceived_storedFrom (hasPlugin calls) { ui with pipe := p } msg
        exact storedFrom_trans h1 (ih _ _)

/-- One operation or channel event stores nothing but `UiNone` and `UiHide`,
and what `getAndResetUiState` hands out is the value stored before. -/
theorem uiRun_step_storedFrom (hasPlugin : List EngineCall → Int → Bool) (r : UiRun)
    (op : UiOp) :
    UiState.StoredFrom r.ui.fUiState (r.step hasPlugin op).ui.fUiState ∧
    ∃ new, (r.step hasPlugin op).observed = r.observed ++ new ∧
      ∀ s ∈ new, UiState.StoredFrom r.ui.fUiState s := by
  cases op with
  | setData f s t => exact ⟨Or.inl rfl, [], by simp [UiRun.step], by simp⟩
  | start => exact ⟨Or.inl rfl, [], by simp [UiRun.step], by simp⟩
  | stop => exact ⟨Or.inl rfl, [], by simp [UiRun.step], by simp⟩
  | idle =>
    exact ⟨idleLoop_storedFrom _ _ _ _, [], by simp [UiRun.step], by simp⟩
  | getAndResetUiState =>
    refine ⟨Or.inr (Or.inl rfl), [r.ui.fUiState], rfl, ?_⟩
    intro s hs
    simp only [List.mem_singleton] at hs
    exact Or.inl hs
  | childWrites line => exact ⟨Or.inl rfl, [], by simp [UiRun.step], by simp⟩
  | childDies => exact ⟨Or.inl rfl, [], by simp [UiRun.step], by simp⟩

/-- Whatever happens to a session, the stored UI state and every value handed
out along the way is the initial value, `UiNone` or `UiHide`. -/
theorem uiRun_run_storedFrom (hasPlugin : List EngineCall → Int → Bool) (ops : List UiOp) :
    ∀ r : UiRun,
      UiState.StoredFrom r.ui.fUiState (r.run hasPlugin ops).ui.fUiState ∧
      ∃ new, (r.run hasPlugin ops).observed = r.observed ++ new ∧
        ∀ s ∈ new, UiState.StoredFrom r.ui.fUiState s := by
  induction ops with
  | nil => intro r; exact ⟨Or.inl rfl, [], by simp [UiRun.run], by simp⟩
  | cons op rest ih =>
    intro r
    obtain ⟨h1, new1, ho1, hn1⟩ := uiRun_step_storedFrom hasPlugin r op
    obtain ⟨h2, new2, ho2, hn2⟩ := ih (r.step hasPlugin op)
    have hrun : r.run hasPlugin (op :: rest) = (r.step hasPlugin op).run hasPlugin rest := rfl
    rw [hrun]
    refine ⟨storedFrom_trans h1 h2, new1 ++ new2, ?_, ?_⟩
    · rw [ho2, ho1, List.append_assoc]
    · intro s hs
      rcases List.mem_append.mp hs with h | h
      · exact hn1 s h
      · exact storedFrom_trans h1 (hn2 s h)

/-- Reading a line never adds to the pending lines. -/
theorem readline_pending_le (p : CarlaPipeServer) :
    p.readline.2.pending.length ≤ p.pending.length := by
  unfold CarlaPipeServer.readline
  cases h : p.pending with
  | nil => simp [h]
  | cons l ls => simp

/-- Reading an integer line never adds to the pending lines. -/
theorem readNextLineAsInt_pending_le (p : CarlaPipeServer) :
    p.readNextLineAsInt.2.pending.length ≤ p.pending.length := by
  have h := readline_pending_le p
  unfold CarlaPipeServer.readNextLineAsInt
  rcases hr : p.readline with ⟨_ | l, q⟩ <;> (rw [hr] at h; exact h)

/-- Reading a boolean line never adds to the pending lines. -/
theorem readNextLineAsBool_pending_le (p : CarlaPipeServer) :
    p.readNextLineAsBool.2.pending.length ≤ p.pending.length := by
  have h := readline_pending_le p
  unfold CarlaPipeServer.readNextLineAsBool
  rcases hr : p.readline with ⟨_ | l, q⟩ <;> (rw [hr] at h; exact h)

/-- Handling a message never adds to the pending lines. -/
theorem msgReceived_pending_le (hasPlugin : Int → Bool) (ui : CarlaEngineNativeUI)
    (msg : String) :
    (ui.msgReceived hasPlugin msg).1.pipe.pending.length ≤ ui.pipe.pending.length := by
  have hI := readNextLineAsInt_pending_le
  have hB := readNextLineAsBool_pending_le
  have hS : ∀ p : CarlaPipeServer,
      p.readNextLineAsString.2.pending.length ≤ p.pending.length := readline_pending_le
  unfold CarlaEngineNativeUI.msgReceived
  split
  · simp [CarlaPipeServer.waitChildClose]
  · split
    · rcases h1 : ui.pipe.readNextLineAsInt with ⟨_ | o, p1⟩
      · have l1 := hI ui.pipe; rw [h1] at l1; exact l1
      · have l1 := hI ui.pipe; rw [h1] at l1
        dsimp only
        rcases h2 : p1.readNextLineAsInt with ⟨_ | v, p2⟩
        · have l2 := hI p1; rw [h2] at l2; exact le_trans l2 l1
        · have l2 := hI p1; rw [h2] at l2
          dsimp only
          rcases h3 : p2.readNextLineAsString with ⟨_ | s, p3⟩
          · have l3 := hS p2; rw [h3] at l3; exact le_trans l3 (le_trans l2 l1)
          · have l3 := hS p2; rw [h3] at l3; exact le_trans l3 (le_trans l2 l1)
    · split
      · rcases h1 : ui.pipe.readNextLineAsInt with ⟨_ | o, p1⟩
        · have l1 := hI ui.pipe; rw [h1] at l1; exact l1
        · have l1 := hI ui.pipe; rw [h1] at l1
          dsimp only
          rcases h2 : p1.readNextLineAsInt with ⟨_ | v, p2⟩
          · have l2 := hI p1; rw [h2] at l2; exact le_trans l2 l1
          · have l2 := hI p1; rw [h2] at l2
            dsimp only
            rcases h3 : p2.readNextLineAsString with ⟨_ | s, p3⟩
            · have l3 := hS p2; rw [h3] at l3; exact le_trans l3 (le_trans l2 l1)
            · have l3 := hS p2; rw [h3] at l3
              dsimp only
              rcases h4 : p3.readNextLineAsString with ⟨_ | s4, p4⟩
              · have l4 := hS p3; rw [h4] at l4
                exact le_trans l4 (le_trans l3 (le_trans l2 l1))
              · have l4 := hS p3; rw [h4] at l4
                dsimp only
                rcases h5 : p4.readNextLineAsString with ⟨_ | s5, p5⟩
                · have l5 := hS p4; rw [h5] at l5
                  exact le_trans l5 (le_trans l4 (le_trans l3 (le_trans l2 l1)))
                · have l5 := hS p4; rw [h5] at l5
                  exact le_trans l5 (le_trans l4 (le_trans l3 (le_trans l2 l1)))
      · split
        · rcases h1 : ui.pipe.readNextLineAsInt with ⟨_ | o, p1⟩
          · have l1 := hI ui.pipe; rw [h1] at l1; exact l1
          · have l1 := hI ui.pipe; rw [h1] at l1
            dsimp only
            rcases h2 : p1.readNextLineAsBool with ⟨_ | v, p2⟩
            · have l2 := hB p1; rw [h2] at l2; exact le_trans l2 l1
            · have l2 := hB p1; rw [h2] at l2
              dsimp only
              split <;> exact le_trans l2 l1
        · exact le_refl _

/-- The fuel of the polling loop is enough: when it is at least the number of
pending lines, the loop ends with no line left unread. -/
theorem idleLoop_drains (hasPlugin : List EngineCall → Int → Bool) (fuel : Nat) :
    ∀ (ui : CarlaEngineNativeUI) (calls : List EngineCall),
      ui.pipe.pending.length ≤ fuel →
      (CarlaEngineNativeUI.idleLoop hasPlugin fuel ui calls).1.pipe.pending = [] := by
  induction fuel with
  | zero =>
    intro ui calls h
    exact List.length_eq_zero.mp (Nat.le_zero.mp h)
  | succ n ih =>
    intro ui calls h
    unfold CarlaEngineNativeUI.idleLoop
    cases hp : ui.pipe.pending with
    | nil => simp [CarlaPipeServer.readline, hp]
    | cons l ls =>
      simp only [CarlaPipeServer.readline, hp]
      apply ih
      have hle := msgReceived_pending_le (hasPlugin calls)
        { ui with pipe := { ui.pipe with pending := ls } } l
      rw [hp] at h
      simp only [List.length_cons] at h
      exact le_trans hle (by simpa using Nat.le_of_succ_le_succ h)

/-- Polling the channel leaves no line unread. -/
theorem idle_drains (hasPlugin : List EngineCall → Int → Bool) (ui : CarlaEngineNativeUI) :
    (ui.idle hasPlugin).1.pipe.pending = [] :=
  idleLoop_drains hasPlugin _ ui [] (le_refl _)

/-- C11 (as stated, refuted): no sequence of operations and channel events
takes a newly constructed session to the stored state `UiCrashed`, and none
makes `getAndResetUiState` return it; in the crash scenario (start, the
child dies, idle, read) the value read is `UiNone`. -/
theorem crashed_state_is_unreachable :
    (¬ ∃ (hasPlugin : List EngineCall → Int → Bool) (ops : List UiOp),
      (UiRun.run hasPlugin {} ops).ui.fUiState = UiState.UiCrashed ∨
      UiState.UiCrashed ∈ (UiRun.run hasPlugin {} ops).observed) ∧
    (UiRun.run (fun _ _ => false) {} sampleCrashScenario).observed = [UiState.UiNone] := by
  refine ⟨?_, by decide⟩
  rintro ⟨hasPlugin, ops, h⟩
  obtain ⟨h1, new, ho, hn⟩ := uiRun_run_storedFrom hasPlugin ops {}
  rcases h with h | h
  · rw [h] at h1
    revert h1; decide
  · rw [ho] at h
    simp only [List.nil_append] at h
    have := hn _ h
    revert this; decide

/-- C11 (amended): starting from a newly constructed session, after any
sequence of operations and channel events, the death of the child and
`idle()` among them, the stored UI state is `UiNone` or `UiHide` and so is
every value `getAndResetUiState` has returned; in any session whose child
dies without having written anything, the `idle()` that follows leaves the
stored state as it was. -/
theorem session_state_is_none_or_hidden (hasPlugin : List EngineCall → Int → Bool)
    (ops : List UiOp) (r : UiRun) (hSilent : r.ui.pipe.pending = []) :
    ((UiRun.run hasPlugin {} ops).ui.fUiState = UiState.UiNone ∨
      (UiRun.run hasPlugin {} ops).ui.fUiState = UiState.UiHide) ∧
    (∀ s ∈ (UiRun.run hasPlugin {} ops).observed, s = UiState.UiNone ∨ s = UiState.UiHide) ∧
    (r.run hasPlugin [UiOp.childDies, UiOp.idle]).ui.fUiState = r.ui.fUiState := by
  obtain ⟨h1, new, ho, hn⟩ := uiRun_run_storedFrom hasPlugin ops {}
  refine ⟨?_, ?_, ?_⟩
  · rcases h1 with h | h | h
    · exact Or.inl h
    · exact Or.inl h
    · exact Or.inr h
  · intro s hs
    rw [ho] at hs
    simp only [List.nil_append] at hs
    rcases hn s hs with h | h | h
    · exact Or.inl h
    · exact Or.inl h
    · exact Or.inr h
  · simp [UiRun.run, UiRun.step, CarlaEngineNativeUI.idle, hSilent,
      CarlaEngineNativeUI.idleLoop]

/-- C11 (amended) at a concrete session: a started session whose child dies
silently is still in state `UiNone` after `idle()`. -/
theorem session_state_is_none_or_hidden_witness :
    (UiRun.run (fun _ _ => false) {} [UiOp.start]).ui.pipe.pending = [] ∧
    (UiRun.run (fun _ _ => false) (UiRun.run (fun _ _ => false) {} [UiOp.start])
        [UiOp.childDies, UiOp.idle]).ui.fUiState = UiState.UiNone :=
  ⟨by decide,
   (session_state_is_none_or_hidden (fun _ _ => false) []
      (UiRun.run (fun _ _ => false) {} [UiOp.start]) (by decide)).2.2.trans (by decide)⟩

/-- C12: whatever UI state `uiIdle` finds after polling the channel, the
stored state is `UiNone` afterwards, and the host is told accordingly:
`UiCrashed` gives exactly one `HOST_OPCODE_UI_UNAVAILABLE` dispatch, `UiHide`
exactly one `ui_closed` call, `UiNone` and `UiShow` give no call at all. -/
theorem uiIdle_consumes_state (engineIdle : ProtectedData → ProtectedData)
    (hasPlugin : List EngineCall → Int → Bool) (self : CarlaEngineNative) :
    (self.uiIdle engineIdle hasPlugin).engine.fUiServer.fUiState = UiState.UiNone ∧
    ((self.fUiServer.idle hasPlugin).1.fUiState = UiState.UiCrashed →
      (self.uiIdle engineIdle hasPlugin).hostCalls
        = [HostCall.dispatcher NativeHostDispatcherOpcode.HOST_OPCODE_UI_UNAVAILABLE 0 0 0]) ∧
    ((self.fUiServer.idle hasPlugin).1.fUiState = UiState.UiHide →
      (self.uiIdle engineIdle hasPlugin).hostCalls = [HostCall.ui_closed]) ∧
    ((self.fUiServer.idle hasPlugin).1.fUiState = UiState.UiNone ∨
      (self.fUiServer.idle hasPlugin).1.fUiState = UiState.UiShow →
      (self.uiIdle engineIdle hasPlugin).hostCalls = []) := by
  unfold CarlaEngineNative.uiIdle
  simp only [CarlaEngineNativeUI.getAndResetUiState]
  cases h : (self.fUiServer.idle hasPlugin).1.fUiState <;> simp

/-- C12 at concrete engines: a child that wrote `exiting` makes `uiIdle` call
`ui_closed` once; a stored `UiCrashed` makes it dispatch
`HOST_OPCODE_UI_UNAVAILABLE` once. -/
theorem uiIdle_consumes_state_witness :
    (({ fUiServer := { pipe := { pending := ["exiting"] } } } : CarlaEngineNative).uiIdle
        id fun _ _ => false).hostCalls = [HostCall.ui_closed] ∧
    (({ fUiServer := { fUiState := UiState.UiCrashed } } : CarlaEngineNative).uiIdle
        id fun _ _ => false).hostCalls
      = [HostCall.dispatcher NativeHostDispatcherOpcode.HOST_OPCODE_UI_UNAVAILABLE 0 0 0] :=
  ⟨(uiIdle_consumes_state id (fun _ _ => false)
      { fUiServer := { pipe := { pending := ["exiting"] } } }).2.2.1 (by decide),
   (uiIdle_consumes_state id (fun _ _ => false)
      { fUiServer := { fUiState := UiState.UiCrashed } }).2.1 (by decide)⟩

/-- A decimal digit character is not a newline. -/
theorem digitChar_ne_newline (n : Nat) : digitChar (n % 10) ≠ '\n' := by
  have h : n % 10 < 10 := Nat.mod_lt _ (by decide)
  unfold digitChar
  interval_cases n % 10 <;> decide

/-- Formatting digits in front of a text without newline gives a text without
newline. -/
theorem formatDigits_no_newline (fuel : Nat) :
    ∀ (n : Nat) (acc : List Char), '\n' ∉ acc → '\n' ∉ formatDigits fuel n acc := by
  induction fuel with
  | zero => intro n acc h; simpa [formatDigits] using h
  | succ k ih =>
    intro n acc h
    have hcons : '\n' ∉ digitChar (n % 10) :: acc := by
      simp only [List.mem_cons, not_or]
      exact ⟨fun e => digitChar_ne_newline n e.symm, h⟩
    unfold formatDigits
    split
    · exact hcons
    · exact ih _ _ hcons

/-- The text written for `%u` has no newline. -/
theorem formatUnsigned_no_newline (n : Nat) : '\n' ∉ (formatUnsigned n).data :=
  formatDigits_no_newline _ _ _ (by simp)

/-- The text written for `%i` has no newline. -/
theorem formatInt_no_newline (i : Int) : '\n' ∉ (formatInt i).data := by
  unfold formatInt
  split
  · simp only [List.mem_cons, not_or]
    exact ⟨by decide, formatDigits_no_newline _ _ _ (by simp)⟩
  · exact formatUnsigned_no_newline _

/-- A text without newline followed by one newline is one line. -/
theorem one_line_of_no_newline (l : List Char) (h : '\n' ∉ l) :
    (l ++ ['\n']).count '\n' = 1 ∧ (l ++ ['\n']).getLast? = some '\n' := by
  constructor
  · rw [List.count_append, List.count_eq_zero.mpr h]; rfl
  · simp

/-- C13: while the engine is running, `uiServerCallback` appends exactly six
messages to the channel, in this order: `ENGINE_CALLBACK_` with the opcode as
an integer, the plugin id, value1, value2, value3 as `%f` text, and the
string value with its newlines replaced; each message ends with a newline and
holds no other newline (for value3: as the `%f` text holds none), so each
occupies one line. -/
theorem uiServerCallback_writes_six_lines (formatFloat : FloatBits → String)
    (self : CarlaEngineNative) (action : Int) (pluginId : Nat) (value1 value2 : Int)
    (value3 : FloatBits) (valueStr : String) (hRunning : self.fIsRunning = true)
    (hFloat : '\n' ∉ (formatFloat value3).data) :
    (self.uiServerCallback formatFloat action pluginId value1 value2 value3
        valueStr).fUiServer.pipe.written
      = self.fUiServer.pipe.written ++
        ["ENGINE_CALLBACK_" ++ formatInt action ++ "\n",
         formatUnsigned pluginId ++ "\n",
         formatInt value1 ++ "\n",
         formatInt value2 ++ "\n",
         formatFloat value3 ++ "\n",
         String.mk ((valueStr.data.map fun c => if c = '\n' then '\r' else c) ++ ['\n'])] ∧
    ∀ m ∈ ["ENGINE_CALLBACK_" ++ formatInt action ++ "\n",
           formatUnsigned pluginId ++ "\n",
           formatInt value1 ++ "\n",
           formatInt value2 ++ "\n",
           formatFloat value3 ++ "\n",
           String.mk ((valueStr.data.map fun c => if c = '\n' then '\r' else c) ++ ['\n'])],
      m.data.count '\n' = 1 ∧ m.data.getLast? = some '\n' := by
  constructor
  · simp [CarlaEngineNative.uiServerCallback, hRunning, CarlaPipeServer.writeMsg,
      CarlaPipeServer.writeAndFixMsg]
  · have hfix : '\n' ∉ valueStr.data.map fun c => if c = '\n' then '\r' else c := by
      simp only [List.mem_map, not_exists, not_and]
      intro c _
      split
      · decide
      · rename_i hc; exact hc
    have hname : '\n' ∉ ("ENGINE_CALLBACK_" ++ formatInt action).data := by
      rw [String.data_append, List.mem_append, not_or]
      exact ⟨by decide, formatInt_no_newline action⟩
    have hnl : ("\n" : String).data = ['\n'] := rfl
    intro m hm
    simp only [List.mem_cons, List.mem_singleton, List.not_mem_nil, or_false] at hm
    rcases hm with rfl | rfl | rfl | rfl | rfl | rfl
    · rw [String.data_append, hnl]; exact one_line_of_no_newline _ hname
    · rw [String.data_append, hnl]; exact one_line_of_no_newline _ (formatUnsigned_no_newline _)
    · rw [String.data_append, hnl]; exact one_line_of_no_newline _ (formatInt_no_newline _)
    · rw [String.data_append, hnl]; exact one_line_of_no_newline _ (formatInt_no_newline _)
    · rw [String.data_append, hnl]; exact one_line_of_no_newline _ hFloat
    · exact one_line_of_no_newline _ hfix

/-- C13 at a concrete notification: opcode 5 for plugin 2 with values -1 and
0 and a string of two lines. -/
theorem uiServerCallback_writes_six_lines_witness :
    sampleRunningEngine.fIsRunning = true ∧
    (sampleRunningEngine.uiServerCallback sampleFormatFloat 5 2 (-1) 0 7
        "two\nlines").fUiServer.pipe.written
      = ["ENGINE_CALLBACK_5\n", "2\n", "-1\n", "0\n", "0.500000\n", "two\rlines\n"] :=
  ⟨rfl,
   (uiServerCallback_writes_six_lines sampleFormatFloat sampleRunningEngine 5 2 (-1) 0 7
      "two\nlines" rfl (by decide)).1.trans (by decide)⟩

/-- C15: when the tag of the document element does not equal `carla-project`
under case-insensitive comparison, and so also when the parse has failed and
there is no document element, `setState` returns the engine as it was and
makes no call but the diagnostic: no `addPlugin`, no `loadSaveState`, no
dispatch to the host. -/
theorem setState_rejects_other_root (x : StateExternals) (self : CarlaEngineNative)
    (data : String)
    (hRoot : compareCaseInsensitive (x.setContent data).rootTagName "carla-project" = false) :
    (self.setState x data).engine = self ∧
    (self.setState x data).trace = [StateCall.carla_stderr2 "Not a valid Carla project"] ∧
    compareCaseInsensitive ({} : QDomDocument).rootTagName "carla-project" = false := by
  refine ⟨?_, ?_, by decide⟩ <;> simp [CarlaEngineNative.setState, hRoot]

/-- C15 at concrete documents: a text that does not parse and a document with
another root leave the saved chain of three plugins as it is. -/
theorem setState_rejects_other_root_witness :
    (sampleStateExternals.setContent "").rootTagName = "" ∧
    (sampleSavedEngine.setState sampleStateExternals "").engine = sampleSavedEngine ∧
    (sampleSavedEngine.setState sampleStateExternals "not a project").trace
      = [StateCall.carla_stderr2 "Not a valid Carla project"] :=
  ⟨by decide,
   (setState_rejects_other_root sampleStateExternals sampleSavedEngine "" (by decide)).1,
   (setState_rejects_other_root sampleStateExternals sampleSavedEngine "not a project"
      (by decide)).2.1⟩

/-- A child node that is no plugin element changes nothing. -/
theorem setStateStep_other (x : StateExternals) (st : ProtectedData × Bool × List StateCall)
    (n : QDomNode) (hTag : compareCaseInsensitive n.tagName "plugin" = false) :
    setStateStep x st n = st := by
  simp [setStateStep, hTag]

/-- A plugin element whose save state has no type tag is passed over with a
failed assertion. -/
theorem setStateStep_untyped (x : StateExternals) (st : ProtectedData × Bool × List StateCall)
    (n : QDomNode) (hTag : compareCaseInsensitive n.tagName "plugin" = true)
    (hType : (x.fillSaveStateFromXmlNode n).type = none) :
    setStateStep x st n
      = (st.1, st.2.1, st.2.2 ++ [StateCall.carla_safe_assert "saveState.type != nullptr"]) := by
  simp [setStateStep, hTag, hType]

/-- A plugin element whose save state has a type tag: `addPlugin` is called
with the type, binary, name, label and the 16-outs hint, the flag is set
whatever the call answers, and the one call that may follow is
`loadSaveState`. -/
theorem setStateStep_typed (x : StateExternals) (st : ProtectedData × Bool × List StateCall)
    (n : QDomNode) (type : String) (hTag : compareCaseInsensitive n.tagName "plugin" = true)
    (hType : (x.fillSaveStateFromXmlNode n).type = some type) :
    ∃ (pData : ProtectedData) (more : List StateCall),
      setStateStep x st n
        = (pData, true,
            st.2.2 ++ StateCall.addPlugin (x.getPluginTypeFromString type)
              (x.fillSaveStateFromXmlNode n).binary (x.fillSaveStateFromXmlNode n).name
              (x.fillSaveStateFromXmlNode n).label
              (use16OutsHint (x.fillSaveStateFromXmlNode n).label type)
              (x.addPlugin st.1 (x.getPluginTypeFromString type)
                (x.fillSaveStateFromXmlNode n).binary (x.fillSaveStateFromXmlNode n).name
                (x.fillSaveStateFromXmlNode n).label
                (use16OutsHint (x.fillSaveStateFromXmlNode n).label type)).1 :: more) ∧
      ∀ c ∈ more, ∀ h, c ≠ StateCall.host h := by
  simp only [setStateStep, hTag, if_true, hType]
  generalize x.addPlugin st.1 (x.getPluginTypeFromString type)
    (x.fillSaveStateFromXmlNode n).binary (x.fillSaveStateFromXmlNode n).name
    (x.fillSaveStateFromXmlNode n).label
    (use16OutsHint (x.fillSaveStateFromXmlNode n).label type) = r
  split
  · split
    · rename_i plugin _
      refine ⟨setPlugin r.2 (r.2.curPluginCount - 1)
          (x.loadSaveState plugin (x.fillSaveStateFromXmlNode n)),
        [StateCall.loadSaveState (r.2.curPluginCount - 1) (x.fillSaveStateFromXmlNode n)],
        ?_, by simp⟩
      rw [List.append_assoc]
      rfl
    · exact ⟨r.2, [], rfl, by simp⟩
  · exact ⟨r.2, [], rfl, by simp⟩

/-- The loop of `setState()` makes no call to the host, and its flag ends up
set exactly when it was set before or some child is a plugin element whose
save state has a type tag, whatever `addPlugin` answered. -/
theorem setStateLoop_flag (x : StateExternals) (nodes : List QDomNode) :
    ∀ st : ProtectedData × Bool × List StateCall,
      (nodes.foldl (setStateStep x) st).2.1
        = (st.2.1 || nodes.any fun n =>
            compareCaseInsensitive n.tagName "plugin" &&
              (x.fillSaveStateFromXmlNode n).type.isSome) ∧
      ((∀ c ∈ st.2.2, ∀ h, c ≠ StateCall.host h) →
        ∀ c ∈ (nodes.foldl (setStateStep x) st).2.2, ∀ h, c ≠ StateCall.host h) := by
  induction nodes with
  | nil => intro st; simp
  | cons n rest ih =>
    intro st
    rw [List.foldl_cons, List.any_cons]
    obtain ⟨ih1, ih2⟩ := ih (setStateStep x st n)
    rw [ih1]
    have hstep : (setStateStep x st n).2.1
          = (st.2.1 || (compareCaseInsensitive n.tagName "plugin" &&
              (x.fillSaveStateFromXmlNode n).type.isSome)) ∧
        ((∀ c ∈ st.2.2, ∀ h, c ≠ StateCall.host h) →
          ∀ c ∈ (setStateStep x st n).2.2, ∀ h, c ≠ StateCall.host h) := by
      cases hTag : compareCaseInsensitive n.tagName "plugin" with
      | false =>
        rw [setStateStep_other x st n hTag]
        exact ⟨by simp, fun h => h⟩
      | true =>
        cases hT : (x.fillSaveStateFromXmlNode n).type with
        | none =>
          rw [setStateStep_untyped x st n hTag hT]
          refine ⟨by simp, fun hclean c hc h => ?_⟩
          rcases List.mem_append.mp hc with hc | hc
          · exact hclean c hc h
          · simp only [List.mem_singleton] at hc
            rw [hc]; exact fun e => by cases e
        | some t =>
          obtain ⟨pData, more, heq, hmore⟩ := setStateStep_typed x st n t hTag hT
          rw [heq]
          refine ⟨by simp, fun hclean c hc h => ?_⟩
          simp only [List.mem_append, List.mem_cons] at hc
          rcases hc with hc | hc | hc
          · exact hclean c hc h
          · rw [hc]; exact fun e => by cases e
          · exact hmore c hc h
    rw [hstep.1, Bool.or_assoc]
    exact ⟨rfl, fun hclean => ih2 (hstep.2 hclean)⟩

/-- For a document with the project root, `setState` dispatches
`HOST_OPCODE_RELOAD_ALL` once, as its last call, when some child is a plugin
element whose save state has a type tag, and makes no call to the host
otherwise; whether any `addPlugin` succeeded plays no part. -/
theorem setState_reload_all (x : StateExternals) (self : CarlaEngineNative) (data : String)
    (hRoot : compareCaseInsensitive (x.setContent data).rootTagName "carla-project" = true) :
    ∃ calls, (∀ c ∈ calls, ∀ h, c ≠ StateCall.host h) ∧
      (self.setState x data).trace = calls ++
        if ((x.setContent data).rootChildren.any fun n =>
            compareCaseInsensitive n.tagName "plugin" &&
              (x.fillSaveStateFromXmlNode n).type.isSome) = true
        then [StateCall.host
          (HostCall.dispatcher NativeHostDispatcherOpcode.HOST_OPCODE_RELOAD_ALL 0 0 0)]
        else [] := by
  obtain ⟨h1, h2⟩ := setStateLoop_flag x (x.setContent data).rootChildren (self.pData, false, [])
  refine ⟨((x.setContent data).rootChildren.foldl (setStateStep x) (self.pData, false, [])).2.2,
    h2 (by simp), ?_⟩
  simp only [CarlaEngineNative.setState, hRoot, Bool.not_true, Bool.false_eq_true, if_false, h1,
    Bool.false_or]
  split <;> simp

/-- C16 (the code at the failing input): a project document with one plugin
element of type `LV2` is loaded into an empty chain while the plugin cannot
be instantiated; `addPlugin` is called once and fails, the chain stays empty,
and `HOST_OPCODE_RELOAD_ALL` is dispatched all the same. -/
theorem setState_reloads_after_failed_add :
    (sampleFreshEngine.setState sampleFailingExternals "synth only").trace
      = [StateCall.addPlugin 4 none (some "Synth") (some "urn:synth") none false,
         StateCall.host
           (HostCall.dispatcher NativeHostDispatcherOpcode.HOST_OPCODE_RELOAD_ALL 0 0 0)] ∧
    (sampleFreshEngine.setState sampleFailingExternals "synth only").engine = sampleFreshEngine ∧
    chainPlugins (sampleFreshEngine.setState sampleFailingExternals "synth only").engine.pData
      = [] := by
  decide

/-- The body of the loop of `setState()` for a plugin element whose save state
has a type tag, written out: the engine's `addPlugin` is called on the chain
as it stands with the type, binary, name, label and 16-outs hint of the
element; when it succeeds the state is loaded into the last plugin of the
chain it leaves. -/
theorem setStateStep_typed_eq (x : StateExternals) (st : ProtectedData × Bool × List StateCall)
    (n : QDomNode) (type : String) (hTag : compareCaseInsensitive n.tagName "plugin" = true)
    (hType : (x.fillSaveStateFromXmlNode n).type = some type) :
    let saveState := x.fillSaveStateFromXmlNode n
    let extraStuff := use16OutsHint saveState.label type
    let r := x.addPlugin st.1 (x.getPluginTypeFromString type) saveState.binary saveState.name
      saveState.label extraStuff
    let call := StateCall.addPlugin (x.getPluginTypeFromString type) saveState.binary
      saveState.name saveState.label extraStuff r.1
    setStateStep x st n
      = (if r.1 = true then
          match getPlugin r.2 (r.2.curPluginCount - 1) with
          | some plugin =>
            (setPlugin r.2 (r.2.curPluginCount - 1) (x.loadSaveState plugin saveState), true,
              st.2.2 ++ [call, StateCall.loadSaveState (r.2.curPluginCount - 1) saveState])
          | none => (r.2, true, st.2.2 ++ [call])
        else
          (r.2, true, st.2.2 ++ [call])) := by
  simp only [setStateStep, hTag, if_true, hType]
  generalize x.addPlugin st.1 (x.getPluginTypeFromString type)
    (x.fillSaveStateFromXmlNode n).binary (x.fillSaveStateFromXmlNode n).name
    (x.fillSaveStateFromXmlNode n).label
    (use16OutsHint (x.fillSaveStateFromXmlNode n).label type) = r
  obtain ⟨ok, pData⟩ := r
  cases ok with
  | false => simp
  | true =>
    simp only [if_true]
    cases getPlugin pData (pData.curPluginCount - 1) with
    | none => simp
    | some plugin => simp

/-- C17: during load, a plugin element with a type tag is added by the
engine's `addPlugin`, called on the chain as it stands with the type, binary,
name and label of the element and the hint that the 16-outs check computes
from its label and type; the step leaves the chain as that call leaves it,
with the state of the element loaded into the last plugin when the call
succeeds.  For a label ending in " (16 outs)" the hint is "true" when the
type is "SF2" and there is no hint when the type is "LV2"; for a label that
does not end in the marker there is no hint whatever the type.  With the
chain mechanics as the specification words them and room in the chain, the
plugin the loader builds for these arguments and this hint is the one the
chain gains, in its first free slot. -/
theorem setState_multi_output_hint (x : StateExternals)
    (st : ProtectedData × Bool × List StateCall) (n : QDomNode) (type : String)
    (hTag : compareCaseInsensitive n.tagName "plugin" = true)
    (hType : (x.fillSaveStateFromXmlNode n).type = some type) :
    let saveState := x.fillSaveStateFromXmlNode n
    let extraStuff := use16OutsHint saveState.label type
    let r := x.addPlugin st.1 (x.getPluginTypeFromString type) saveState.binary saveState.name
      saveState.label extraStuff
    let call := StateCall.addPlugin (x.getPluginTypeFromString type) saveState.binary
      saveState.name saveState.label extraStuff r.1
    (setStateStep x st n
      = (if r.1 = true then
          match getPlugin r.2 (r.2.curPluginCount - 1) with
          | some plugin =>
            (setPlugin r.2 (r.2.curPluginCount - 1) (x.loadSaveState plugin saveState), true,
              st.2.2 ++ [call, StateCall.loadSaveState (r.2.curPluginCount - 1) saveState])
          | none => (r.2, true, st.2.2 ++ [call])
        else
          (r.2, true, st.2.2 ++ [call]))) ∧
    (endsWith (saveState.label.getD "") " (16 outs)" = true →
      (type = "SF2" → extraStuff = some "true") ∧ (type = "LV2" → extraStuff = none)) ∧
    (endsWith (saveState.label.getD "") " (16 outs)" = false → extraStuff = none) ∧
    (∀ (instantiate : Nat → Option String → Option String → Option String → Option String →
          Option CarlaPlugin) (slots : List EnginePluginData) (plugin : CarlaPlugin),
      x.addPlugin = addPlugin instantiate → st.1.plugins = some slots →
      st.1.curPluginCount < slots.length →
      instantiate (x.getPluginTypeFromString type) saveState.binary saveState.name
        saveState.label extraStuff = some plugin →
      (setStateStep x st n).1.curPluginCount = st.1.curPluginCount + 1 ∧
      getPlugin (setStateStep x st n).1 st.1.curPluginCount
        = some (x.loadSaveState plugin saveState)) := by
  intro saveState extraStuff r call
  have hstep := setStateStep_typed_eq x st n type hTag hType
  refine ⟨hstep, fun hEnd => ⟨fun hT => ?_, fun hT => ?_⟩, fun hEnd => ?_, ?_⟩
  · simp [extraStuff, saveState, use16OutsHint, kUse16OutsSuffix, hEnd, hT]
  · subst hT
    simp only [extraStuff, saveState, use16OutsHint, kUse16OutsSuffix, hEnd, if_true]
    decide
  · simp [extraStuff, saveState, use16OutsHint, kUse16OutsSuffix, hEnd]
  · intro instantiate slots plugin hAdd hs hc hI
    have hadd : x.addPlugin st.1 (x.getPluginTypeFromString type)
        (x.fillSaveStateFromXmlNode n).binary (x.fillSaveStateFromXmlNode n).name
        (x.fillSaveStateFromXmlNode n).label
        (use16OutsHint (x.fillSaveStateFromXmlNode n).label type)
        = (true, { st.1 with
            plugins := some (slots.set st.1.curPluginCount { plugin := some plugin }),
            curPluginCount := st.1.curPluginCount + 1 }) := by
      rw [hAdd]
      simp only [addPlugin, hs, hc, if_true]
      rw [hI]
    have hget : getPlugin { st.1 with
          plugins := some (slots.set st.1.curPluginCount { plugin := some plugin }),
          curPluginCount := st.1.curPluginCount + 1 } st.1.curPluginCount = some plugin := by
      unfold getPlugin
      simp only [Nat.lt_succ_self, if_true, Option.getD_some]
      rw [List.getD_eq_getElem?_getD, List.getElem?_set_self hc]
      rfl
    simp only [hadd] at hstep
    rw [hstep]
    simp only [if_true, Nat.add_sub_cancel, hget]
    refine ⟨rfl, ?_⟩
    unfold getPlugin setPlugin
    simp only [Nat.lt_succ_self, if_true, Option.map_some', Option.getD_some, List.set_set]
    rw [List.getD_eq_getElem?_getD, List.getElem?_set_self hc]
    rfl

/-- C17 at concrete elements: the piano of type "SF2" labelled
"Piano (16 outs)" gets the hint, and the load of the project with a loader
that tells the variants apart brings up the piano in its multi-output variant
and the synth of type "LV2" in its plain one. -/
theorem setState_multi_output_hint_witness :
    use16OutsHint samplePianoState.label "SF2" = some "true" ∧
    (sampleFreshEngine.setState sampleVariantExternals "project").trace
      = [StateCall.addPlugin 8 (some "piano.sf2") (some "Piano") (some "Piano (16 outs)")
           (some "true") true,
         StateCall.loadSaveState 0 samplePianoState,
         StateCall.addPlugin 4 none (some "Synth") (some "urn:synth") none true,
         StateCall.loadSaveState 1 sampleSynthState,
         StateCall.host
           (HostCall.dispatcher NativeHostDispatcherOpcode.HOST_OPCODE_RELOAD_ALL 0 0 0)] ∧
    chainPlugins (sampleFreshEngine.setState sampleVariantExternals "project").engine.pData
      = [{ id := 8, enabled := true, realName := "Piano [16 outs]",
           saveState := samplePianoState },
         { id := 4, enabled := true, realName := "Synth", saveState := sampleSynthState }] :=
  ⟨((setState_multi_output_hint sampleVariantExternals (sampleFreshEngine.pData, false, [])
      { tagName := "Plugin", payload := "piano" } "SF2" (by decide) (by decide)).2.1
        (by decide)).1 rfl,
   by decide, by decide⟩

/-- The body of a non-empty document that gains one block at its end. -/
theorem documentBody_cons_append_singleton (rest : List String) :
    ∀ first block : String, documentBody (first :: (rest ++ [block]))
      = documentBody (first :: rest) ++ ("\n" ++ block) := by
  induction rest with
  | nil => intro first block; rfl
  | cons c rest2 ih =>
    intro first block
    show first ++ ("\n" ++ documentBody (c :: (rest2 ++ [block])))
      = first ++ ("\n" ++ documentBody (c :: rest2)) ++ ("\n" ++ block)
    rw [ih c block, String.append_assoc, String.append_assoc]

/-- The body of a document that gains one block at its end. -/
theorem documentBody_append_singleton (blocks : List String) (block : String) :
    documentBody (blocks ++ [block])
      = if blocks = [] then block else documentBody blocks ++ ("\n" ++ block) := by
  cases blocks with
  | nil => rfl
  | cons b rest =>
    rw [if_neg (by simp)]
    exact documentBody_cons_append_singleton rest b block

/-- One round of the loop of `getState()` over a slot that holds an enabled
plugin appends the block of the plugin, after an empty line when a block was
written before. -/
theorem getStateStep_enabled (x : StateExternals) (pData : ProtectedData) (header : String)
    (done : List CarlaPlugin) (i : Nat) (plugin : CarlaPlugin)
    (hp : ((pData.plugins.getD []).getD i {}).plugin = some plugin)
    (he : plugin.isEnabled = true) :
    getStateStep x pData (header ++ documentBody (done.map (pluginBlock x)), done.isEmpty) i
      = (header ++ documentBody ((done ++ [plugin]).map (pluginBlock x)), false) := by
  unfold getStateStep
  simp only [hp, he, if_true, List.map_append, List.map_cons, List.map_nil,
    documentBody_append_singleton, pluginBlock]
  cases done with
  | nil =>
    by_cases hn : plugin.realName = ""
    · simp only [hn, ne_eq, not_true_eq_false, if_false, List.isEmpty_nil, Bool.not_true,
        Bool.false_eq_true, List.map_nil, if_true, documentBody, String.append_empty,
        String.empty_append, String.append_assoc]
    · simp only [hn, ne_eq, not_false_eq_true, if_true, List.isEmpty_nil, Bool.not_true,
        Bool.false_eq_true, if_false, List.map_nil, documentBody, String.append_empty,
        String.append_assoc]
  | cons d rest =>
    by_cases hn : plugin.realName = ""
    · simp only [hn, ne_eq, not_true_eq_false, if_false, List.isEmpty_cons, Bool.not_false,
        List.map_cons, reduceCtorEq, if_true, String.empty_append, String.append_assoc]
    · simp only [hn, ne_eq, not_false_eq_true, if_true, List.isEmpty_cons, Bool.not_false,
        List.map_cons, reduceCtorEq, if_false, String.append_assoc]

/-- One round of the loop of `getState()` over a slot that is empty or holds a
disabled plugin changes nothing. -/
theorem getStateStep_skipped (x : StateExternals) (pData : ProtectedData)
    (st : String × Bool) (i : Nat)
    (hp : ((pData.plugins.getD []).getD i {}).plugin.filter CarlaPlugin.isEnabled = none) :
    getStateStep x pData st i = st := by
  unfold getStateStep
  generalize ((pData.plugins.getD []).getD i {}).plugin = o at hp ⊢
  cases o with
  | none => rfl
  | some plugin =>
    cases he : plugin.isEnabled with
    | false => simp only [he, Bool.false_eq_true, if_false]
    | true => simp only [Option.filter, he, if_true, reduceCtorEq] at hp

/-- A slot that passes the filter holds an enabled plugin. -/
theorem filter_isEnabled_eq_some (o : Option CarlaPlugin) (plugin : CarlaPlugin)
    (hf : o.filter CarlaPlugin.isEnabled = some plugin) :
    o = some plugin ∧ plugin.isEnabled = true := by
  cases o with
  | none => simp only [Option.filter, reduceCtorEq] at hf
  | some q =>
    simp only [Option.filter] at hf
    split at hf
    · rename_i hen
      simp only [Option.some.injEq] at hf
      subst hf
      exact ⟨rfl, hen⟩
    · cases hf

/-- The loop of `getState()` over the slots below `n` leaves the header
followed by the blocks of the enabled plugins of these slots; its flag still
says first plugin exactly when there was none. -/
theorem getStateLoop_eq (x : StateExternals) (pData : ProtectedData) (header : String)
    (n : Nat) :
    (List.range n).foldl (getStateStep x pData) (header, true)
      = (header ++ documentBody
            (((List.range n).filterMap fun i =>
              ((pData.plugins.getD []).getD i {}).plugin.filter CarlaPlugin.isEnabled).map
                (pluginBlock x)),
         ((List.range n).filterMap fun i =>
              ((pData.plugins.getD []).getD i {}).plugin.filter CarlaPlugin.isEnabled).isEmpty) := by
  induction n with
  | zero =>
    simp only [List.range_zero, List.foldl_nil, List.filterMap_nil, List.map_nil, documentBody,
      String.append_empty, List.isEmpty_nil]
  | succ k ih =>
    rw [List.range_succ, List.foldl_append, ih, List.filterMap_append]
    simp only [List.foldl_cons, List.foldl_nil, List.filterMap_cons, List.filterMap_nil]
    cases hf : ((pData.plugins.getD []).getD k {}).plugin.filter CarlaPlugin.isEnabled with
    | none =>
      rw [getStateStep_skipped x pData _ k hf]
      simp only [List.append_nil]
    | some plugin =>
      obtain ⟨hp1, hp2⟩ := filter_isEnabled_eq_some _ plugin hf
      rw [getStateStep_enabled x pData header _ k plugin hp1 hp2]
      have hne : ∀ l : List CarlaPlugin, (l ++ [plugin]).isEmpty = false := by
        intro l; cases l <;> rfl
      rw [hne]

/-- C18: for every chain the document `getState` produces is the fixed
header, then one block per slot `i < curPluginCount` whose plugin is present
and enabled, in chain order (the plugin's `<Plugin>` element, preceded by
its real name as a comment when it has one, an empty line between two
blocks), then the fixed footer; absent and disabled slots contribute nothing,
and a chain with no enabled plugin gives the header followed by the footer. -/
theorem getState_document (x : StateExternals) (self : CarlaEngineNative) :
    self.getState x
      = getStateHeader ++ documentBody ((chainPlugins self.pData).map (pluginBlock x))
          ++ getStateFooter ∧
    (chainPlugins self.pData = [] → self.getState x = getStateHeader ++ getStateFooter) ∧
    ∀ plugin : CarlaPlugin, pluginBlock x plugin
      = (if plugin.realName ≠ "" then " <!-- " ++ x.xmlSafeString plugin.realName true ++ " -->\n"
          else "") ++
        (" <Plugin>\n" ++ (x.fillXmlStringFromSaveState plugin.saveState ++ " </Plugin>\n")) := by
  have h : self.getState x
      = getStateHeader ++ documentBody ((chainPlugins self.pData).map (pluginBlock x))
          ++ getStateFooter := by
    unfold CarlaEngineNative.getState
    simp only []
    rw [getStateLoop_eq]
    rfl
  refine ⟨h, fun hEmpty => ?_, fun _ => rfl⟩
  rw [h, hEmpty]
  simp [documentBody]

/-- C18 at a concrete chain: the piano, a disabled plugin and the synth. -/
theorem getState_document_witness :
    chainPlugins sampleFreshEngine.pData = [] ∧
    sampleFreshEngine.getState sampleStateExternals = getStateHeader ++ getStateFooter ∧
    sampleSavedEngine.getState sampleStateExternals
      = getStateHeader ++
        (" <!-- Piano -->\n <Plugin>\n  <Type>SF2</Type>\n </Plugin>\n" ++ "\n" ++
          " <!-- Synth -->\n <Plugin>\n  <Type>LV2</Type>\n </Plugin>\n") ++
        getStateFooter :=
  ⟨by decide,
   (getState_document sampleStateExternals sampleFreshEngine).2.1 (by decide),
   (getState_document sampleStateExternals sampleSavedEngine).1.trans rfl⟩

/-- Adding a channel number below 16 onto a byte whose low nibble is zero sets
no bit twice: the sum stays a byte, it is the bitwise OR of the two, and the
two nibbles of the sum are the high nibble of the byte and the channel. -/
theorem premasked_status_add_channel (status channel : Nat) (hByte : status < 256)
    (hMask : status % 16 = 0) (hChan : channel < 16) :
    (status + channel) % 256 = status ||| channel ∧
    (status + channel) % 256 / 16 = status / 16 ∧
    (status + channel) % 256 % 16 = channel := by
  have hall : ∀ k < 16, ∀ c < 16, 16 * k + c = (16 * k) ||| c := by decide
  obtain ⟨k, rfl⟩ : ∃ k, status = 16 * k := ⟨status / 16, by omega⟩
  have hk : k < 16 := by omega
  have hlt : 16 * k + channel < 256 := by omega
  rw [Nat.mod_eq_of_lt hlt]
  exact ⟨hall k hk channel hChan, by omega, by omega⟩

/-- C21: a Midi-typed outbound entry that is delivered (at most four bytes, no
extended data), whose stored status byte has a zero low nibble and whose
channel is in 0..15, goes out with a status byte equal to (status OR channel);
the high nibble of the delivered byte is the high nibble of the stored status
byte and its low nibble is the channel. -/
theorem eventsOutput_premasked_status (x : Externals) (e : EngineEvent)
    (rest : List EngineEvent) (prev : NativeMidiEvent) (hT : e.type = kEngineEventTypeMidi)
    (hS : e.midi.size ≤ 4) (hE : e.midi.dataExt = none) (hByte : e.midi.data.get 0 < 256)
    (hMask : e.midi.data.get 0 % 16 = 0) (hChan : e.channel < 16) :
    ∃ m, eventsOutputLoop x (e :: rest) prev = m :: eventsOutputLoop x rest m ∧
      m.data.get 0 = e.midi.data.get 0 ||| e.channel ∧
      m.data.get 0 / 16 = e.midi.data.get 0 / 16 ∧
      m.data.get 0 % 16 = e.channel := by
  have hD : isDelivered e = true := by simp [isDelivered, hT, hS, hE]
  have hN : ¬ e.type = kEngineEventTypeNull := by
    simp [hT, kEngineEventTypeMidi, kEngineEventTypeNull]
  have hC : ¬ e.type = kEngineEventTypeControl := by
    simp [hT, kEngineEventTypeMidi, kEngineEventTypeControl]
  have h0 : (translate x e prev).data.get 0 = (e.midi.data.get 0 + e.channel) % 256 := by
    simp only [translate, if_neg hC]
    rw [copyMidiData_get_zero _ _ _ hS]
    simp [MidiData.get, MidiData.set]
  refine ⟨translate x e prev, ?_, ?_⟩
  · rw [eventsOutputLoop, if_neg hN, eventsOutputStep_delivered x e prev prev hD rfl rfl]
    simp
  · rw [h0]
    exact premasked_status_add_channel _ _ hByte hMask hChan

/-- C21 at a concrete entry: note-on status 144 (0x90) on channel 1 goes out as
145 (0x91), high nibble 9 and low nibble 1. -/
theorem eventsOutput_premasked_status_witness :
    ∃ m, eventsOutputLoop sampleExternals [sampleOutboundNote] {} =
        m :: eventsOutputLoop sampleExternals [] m ∧
      m.data.get 0 = 144 ||| 1 ∧ m.data.get 0 / 16 = 144 / 16 ∧ m.data.get 0 % 16 = 1 :=
  eventsOutput_premasked_status sampleExternals sampleOutboundNote [] {} rfl (by decide) rfl
    (by decide) (by decide) (by decide)


/-- C22: the 16-outs check of `setState()` gives no hint to an element of type
"SFZ", whatever its label, although its own comment names "GIG, SF2 or SFZ":
with the label "Drums (16 outs)" the types "GIG" and "SF2" get the hint
"true" and "SFZ" gets none, and the load of a project with that SFZ element
calls `addPlugin` without the hint. -/
theorem setState_sfz_gets_no_hint :
    (∀ label : Option String, use16OutsHint label "SFZ" = none) ∧
    endsWith "Drums (16 outs)" kUse16OutsSuffix = true ∧
    use16OutsHint (some "Drums (16 outs)") "GIG" = some "true" ∧
    use16OutsHint (some "Drums (16 outs)") "SF2" = some "true" ∧
    (sampleFreshEngine.setState sampleDrumsExternals "drums").trace
      = [StateCall.addPlugin 9 (some "drums.sfz") (some "Drums") (some "Drums (16 outs)")
           none true,
         StateCall.loadSaveState 0 sampleDrumsState,
         StateCall.host
           (HostCall.dispatcher NativeHostDispatcherOpcode.HOST_OPCODE_RELOAD_ALL 0 0 0)] := by
  refine ⟨fun label => ?_, by decide, by decide, by decide, by decide⟩
  have hT : ¬ ("SFZ" = "GIG" ∨ "SFZ" = "SF2") := by decide
  simp only [use16OutsHint, if_neg hT, ite_self]

end CarlaBackend

namespace DISTRHO

/-- The count of `oneShown` calls over two traces in a row. -/
theorem shownCount_append (k : Nat) (a b : List WindowCall) :
    shownCount k (a ++ b) = shownCount k a + shownCount k b := by
  simp [shownCount]

/-- The count of `oneHidden` calls over two traces in a row. -/
theorem hiddenCount_append (k : Nat) (a b : List WindowCall) :
    hiddenCount k (a ++ b) = hiddenCount k a + hiddenCount k b := by
  simp [hiddenCount]

/-- The native calls are no notifications of the application. -/
theorem nativeSetVisible_counts (os : Platform) (k j : Nat) (yesNo : Bool) :
    shownCount k (nativeSetVisible os j yesNo) = 0 ∧
    hiddenCount k (nativeSetVisible os j yesNo) = 0 := by
  cases os <;> cases yesNo <;> simp [nativeSetVisible, shownCount, hiddenCount]

/-- The calls on the widgets are no notifications of the application. -/
theorem widgetOnClose_counts (k j : Nat) (ws : List Nat) :
    shownCount k (ws.map (WindowCall.widgetOnClose j)) = 0 ∧
    hiddenCount k (ws.map (WindowCall.widgetOnClose j)) = 0 := by
  induction ws with
  | nil => simp [shownCount, hiddenCount]
  | cons w ws ih =>
    simp only [shownCount, hiddenCount] at ih
    simp [shownCount, hiddenCount, List.count_cons, ih]

/-- What `setVisible` leaves alone, and what it sets. -/
theorem setVisible_fields (os : Platform) (w : Window.Private) (b : Bool) :
    (w.setVisible os b).1.kSelf = w.kSelf ∧
    (w.setVisible os b).1.fChildFocus = w.fChildFocus ∧
    (w.setVisible os b).1.fClosed = w.fClosed ∧
    (w.setVisible os b).1.fWidgets = w.fWidgets ∧
    (w.setVisible os b).1.fVisible = b := by
  obtain ⟨k, c, v, cl, ws⟩ := w
  by_cases h : v = b
  · simp [Window.Private.setVisible, h, Window.Private.kSelf, Window.Private.fChildFocus,
      Window.Private.fClosed, Window.Private.fWidgets, Window.Private.fVisible]
  · simp [Window.Private.setVisible, h, Window.Private.kSelf, Window.Private.fChildFocus,
      Window.Private.fClosed, Window.Private.fWidgets, Window.Private.fVisible]

/-- The notifications of one `setVisible`: one of the right kind when the
visibility changes, none otherwise. -/
theorem setVisible_counts (os : Platform) (w : Window.Private) (b : Bool) :
    shownCount w.kSelf (w.setVisible os b).2 = (if w.fVisible = false ∧ b = true then 1 else 0) ∧
    hiddenCount w.kSelf (w.setVisible os b).2
      = (if w.fVisible = true ∧ b = false then 1 else 0) := by
  obtain ⟨k, c, v, cl, ws⟩ := w
  have hn := nativeSetVisible_counts os k k b
  cases v <;> cases b <;>
    simp [Window.Private.setVisible, Window.Private.kSelf, Window.Private.fVisible,
      shownCount_append, hiddenCount_append, hn.1, hn.2] <;>
    simp [shownCount, hiddenCount]

/-- A window notifies under its own address only. -/
theorem setVisible_counts_other (os : Platform) (w : Window.Private) (b : Bool) (k : Nat)
    (hk : k ≠ w.kSelf) :
    shownCount k (w.setVisible os b).2 = 0 ∧ hiddenCount k (w.setVisible os b).2 = 0 := by
  obtain ⟨j, c, v, cl, ws⟩ := w
  have hn := nativeSetVisible_counts os k j b
  have hk' : ¬ j = k := fun h => hk (by simp [Window.Private.kSelf, h])
  cases v <;> cases b <;>
    simp [Window.Private.setVisible, shownCount_append, hiddenCount_append, hn.1, hn.2] <;>
    simp [shownCount, hiddenCount, List.count_cons, hk']

/-- The chain of focused children is unchanged by `setVisible`. -/
theorem setVisible_focusChain (os : Platform) (w : Window.Private) (b : Bool) :
    (w.setVisible os b).1.focusChain = w.focusChain := by
  obtain ⟨k, c, v, cl, ws⟩ := w
  by_cases h : v = b
  · simp [Window.Private.setVisible, h]
  · cases c <;> simp [Window.Private.setVisible, h, Window.Private.focusChain]

/-- What `onClose` leaves alone, and what it sets. -/
theorem onClose_fields (os : Platform) : ∀ w : Window.Private,
    (w.onClose os).1.kSelf = w.kSelf ∧ (w.onClose os).1.fVisible = false ∧
    (w.onClose os).1.fClosed = true ∧ (w.onClose os).1.fWidgets = w.fWidgets ∧
    (w.onClose os).1.focusChain = w.focusChain
  | .mk k none v cl ws => by
    have h := setVisible_fields os (.mk k none v true ws) false
    have hc := setVisible_focusChain os (.mk k none v true ws) false
    simp only [Window.Private.onClose, Window.Private.hide]
    exact ⟨h.1, h.2.2.2.2, h.2.2.1, h.2.2.2.1, hc⟩
  | .mk k (some c) v cl ws => by
    have ih := onClose_fields os c
    have h := setVisible_fields os (.mk k (some (c.onClose os).1) v true ws) false
    have hc := setVisible_focusChain os (.mk k (some (c.onClose os).1) v true ws) false
    simp only [Window.Private.onClose, Window.Private.hide]
    refine ⟨h.1, h.2.2.2.2, h.2.2.1, h.2.2.2.1, ?_⟩
    rw [hc]
    simp [Window.Private.focusChain, ih.2.2.2.2]

/-- During `onClose` only the window and the windows of its chain of focused
children notify the application. -/
theorem onClose_counts_other (os : Platform) (k : Nat) : ∀ w : Window.Private,
    k ∉ w.focusChain →
    shownCount k (w.onClose os).2 = 0 ∧ hiddenCount k (w.onClose os).2 = 0
  | .mk j none v cl ws => by
    intro hk
    have hj : k ≠ (Window.Private.mk j none v true ws).kSelf := by
      simpa [Window.Private.focusChain, Window.Private.kSelf] using hk
    have h := setVisible_counts_other os (.mk j none v true ws) false k hj
    have hw := widgetOnClose_counts k j ws
    simp only [Window.Private.onClose, Window.Private.hide, shownCount_append,
      hiddenCount_append, h.1, h.2, hw.1, hw.2]
    exact ⟨trivial, trivial⟩
  | .mk j (some c) v cl ws => by
    intro hk
    have hk2 : ¬ k = j ∧ k ∉ c.focusChain := by
      simpa [Window.Private.focusChain] using hk
    have ih := onClose_counts_other os k c hk2.2
    have hj : k ≠ (Window.Private.mk j (some (c.onClose os).1) v true ws).kSelf := by
      simpa [Window.Private.kSelf] using hk2.1
    have h := setVisible_counts_other os (.mk j (some (c.onClose os).1) v true ws) false k hj
    have hw := widgetOnClose_counts k j ws
    simp only [Window.Private.onClose, Window.Private.hide, shownCount_append,
      hiddenCount_append, h.1, h.2, hw.1, hw.2, ih.1, ih.2]
    exact ⟨trivial, trivial⟩

/-- The notifications of one `onClose` under the address of the window: one
`oneHidden` when it was visible, none otherwise, and never a `oneShown`. -/
theorem onClose_counts (os : Platform) (w : Window.Private) (hD : w.Distinct) :
    shownCount w.kSelf (w.onClose os).2 = 0 ∧
    hiddenCount w.kSelf (w.onClose os).2 = (if w.fVisible = true then 1 else 0) := by
  obtain ⟨k, c, v, cl, ws⟩ := w
  have hw := widgetOnClose_counts k k ws
  cases c with
  | none =>
    have h := setVisible_counts os (.mk k none v true ws) false
    simp only [Window.Private.kSelf, Window.Private.fVisible] at h
    simp only [Window.Private.onClose, Window.Private.hide, Window.Private.kSelf,
      Window.Private.fVisible, shownCount_append, hiddenCount_append, h.1, h.2, hw.1, hw.2]
    simp
  | some c =>
    have hk : k ∉ c.focusChain := by
      simpa [Window.Private.Distinct, Window.Private.focusChain, Window.Private.kSelf] using hD
    have hc := onClose_counts_other os k c hk
    have h := setVisible_counts os (.mk k (some (c.onClose os).1) v true ws) false
    simp only [Window.Private.kSelf, Window.Private.fVisible] at h
    simp only [Window.Private.onClose, Window.Private.hide, Window.Private.kSelf,
      Window.Private.fVisible, shownCount_append, hiddenCount_append, h.1, h.2, hw.1, hw.2,
      hc.1, hc.2]
    simp

/-- The focused children stay other windows through `setVisible`. -/
theorem setVisible_distinct (os : Platform) (w : Window.Private) (b : Bool) (hD : w.Distinct) :
    (w.setVisible os b).1.Distinct := by
  unfold Window.Private.Distinct at hD ⊢
  rw [(setVisible_fields os w b).1, setVisible_focusChain]
  exact hD

/-- The focused children stay other windows through `onClose`. -/
theorem onClose_distinct (os : Platform) (w : Window.Private) (hD : w.Distinct) :
    (w.onClose os).1.Distinct := by
  unfold Window.Private.Distinct at hD ⊢
  rw [(onClose_fields os w).1, (onClose_fields os w).2.2.2.2]
  exact hD

/-- One call on a window whose focused children are other windows: the
address stays, the focused children stay other windows, and the window
notifies the application once, with the right call, when the call changes its
visibility, and not at all when it does not. -/
theorem call_accounting (os : Platform) (w : Window.Private) (op : WindowOp)
    (hD : w.Distinct) :
    (w.call os op).1.kSelf = w.kSelf ∧ (w.call os op).1.Distinct ∧
    shownCount w.kSelf (w.call os op).2
      = (if w.fVisible = false ∧ (w.call os op).1.fVisible = true then 1 else 0) ∧
    hiddenCount w.kSelf (w.call os op).2
      = (if w.fVisible = true ∧ (w.call os op).1.fVisible = false then 1 else 0) := by
  have hset : ∀ b, (w.setVisible os b).1.kSelf = w.kSelf ∧ (w.setVisible os b).1.Distinct ∧
      shownCount w.kSelf (w.setVisible os b).2
        = (if w.fVisible = false ∧ (w.setVisible os b).1.fVisible = true then 1 else 0) ∧
      hiddenCount w.kSelf (w.setVisible os b).2
        = (if w.fVisible = true ∧ (w.setVisible os b).1.fVisible = false then 1 else 0) := by
    intro b
    have hf := setVisible_fields os w b
    have hc := setVisible_counts os w b
    rw [hf.2.2.2.2]
    exact ⟨hf.1, setVisible_distinct os w b hD, hc.1, hc.2⟩
  cases op
  · exact hset true
  · exact hset false
  · exact hset _
  · have hf := onClose_fields os w
    have hc := onClose_counts os w hD
    simp only [Window.Private.call]
    refine ⟨hf.1, onClose_distinct os w hD, ?_, ?_⟩
    · rw [hc.1]; simp [hf.2.1]
    · rw [hc.2]; simp [hf.2.1]

/-- The balance of notifications over a sequence of calls, from any start. -/
theorem run_accounting (os : Platform) (ops : List WindowOp) : ∀ w : Window.Private,
    w.Distinct →
    (w.run os ops).1.kSelf = w.kSelf ∧ (w.run os ops).1.Distinct ∧
    shownCount w.kSelf (w.run os ops).2 + (if w.fVisible = true then 1 else 0)
      = hiddenCount w.kSelf (w.run os ops).2
        + (if (w.run os ops).1.fVisible = true then 1 else 0) := by
  induction ops with
  | nil =>
    intro w hD
    simp [Window.Private.run, shownCount, hiddenCount, hD]
  | cons op ops ih =>
    intro w hD
    obtain ⟨hk, hD2, hs, hh⟩ := call_accounting os w op hD
    obtain ⟨ik, iD, ib⟩ := ih (w.call os op).1 hD2
    rw [hk] at ik ib
    simp only [Window.Private.run, shownCount_append, hiddenCount_append]
    refine ⟨ik, iD, ?_⟩
    rw [hs, hh]
    cases hv : w.fVisible <;> cases hv2 : (w.call os op).1.fVisible <;>
      simp [hv2] at ib ⊢ <;> omega

/-- C23: window visibility accounting.  For every sequence of `show()`,
`hide()`, `setVisible(b)` and `onClose()` calls on a window that starts hidden
and whose focused children are other windows, in the state the sequence
reaches: `setVisible` with the current visibility changes nothing and calls
nothing; every further call makes the window notify the application exactly
once when the call changes its visibility (`oneShown` on becoming visible,
`oneHidden` on becoming hidden) and not at all when it does not; and the
number of `oneShown` calls the window made exceeds the number of its
`oneHidden` calls by 1 when it is visible and by 0 when it is not. -/
theorem window_visibility_accounting (os : Platform) (w : Window.Private)
    (ops : List WindowOp) (hHidden : w.fVisible = false) (hD : w.Distinct) :
    (w.run os ops).1.setVisible os (w.run os ops).1.fVisible = ((w.run os ops).1, []) ∧
    (∀ op : WindowOp,
      shownCount w.kSelf (((w.run os ops).1.call os op).2)
        = (if (w.run os ops).1.fVisible = false ∧
              ((w.run os ops).1.call os op).1.fVisible = true then 1 else 0) ∧
      hiddenCount w.kSelf (((w.run os ops).1.call os op).2)
        = (if (w.run os ops).1.fVisible = true ∧
              ((w.run os ops).1.call os op).1.fVisible = false then 1 else 0)) ∧
    shownCount w.kSelf (w.run os ops).2
      = hiddenCount w.kSelf (w.run os ops).2
        + (if (w.run os ops).1.fVisible = true then 1 else 0) := by
  obtain ⟨hk, hD2, hb⟩ := run_accounting os ops w hD
  refine ⟨?_, fun op => ?_, ?_⟩
  · generalize (w.run os ops).1 = v
    obtain ⟨k, c, vis, cl, ws⟩ := v
    simp [Window.Private.setVisible, Window.Private.fVisible]
  · have h := call_accounting os (w.run os ops).1 op hD2
    rw [hk] at h
    exact ⟨h.2.2.1, h.2.2.2⟩
  · simpa [hHidden] using hb

/-- C23 at a concrete run on Linux: the hidden main window with a visible
dialog as focused child is shown, shown again, closed, hidden and shown.  It
made two `oneShown` calls and one `oneHidden` call and is visible; the
`oneHidden` call of the dialog during the close is the dialog's own. -/
theorem window_visibility_accounting_witness :
    sampleMainWindow.fVisible = false ∧ sampleMainWindow.Distinct ∧
    (sampleMainWindow.run Platform.linux
        [WindowOp.show, WindowOp.setVisible true, WindowOp.onClose, WindowOp.hide,
         WindowOp.show]).1.fVisible = true ∧
    shownCount 1 (sampleMainWindow.run Platform.linux
        [WindowOp.show, WindowOp.setVisible true, WindowOp.onClose, WindowOp.hide,
         WindowOp.show]).2 = 1 + 1 ∧
    (sampleMainWindow.run Platform.linux
        [WindowOp.show, WindowOp.setVisible true, WindowOp.onClose, WindowOp.hide,
         WindowOp.show]).2
      = [WindowCall.XMapRaised 1, WindowCall.XFlush 1, WindowCall.oneShown 1,
         WindowCall.widgetOnClose 2 21, WindowCall.XUnmapWindow 2, WindowCall.XFlush 2,
         WindowCall.oneHidden 2,
         WindowCall.widgetOnClose 1 11, WindowCall.widgetOnClose 1 12,
         WindowCall.XUnmapWindow 1, WindowCall.XFlush 1, WindowCall.oneHidden 1,
         WindowCall.XMapRaised 1, WindowCall.XFlush 1, WindowCall.oneShown 1] :=
  ⟨rfl, by decide, by decide,
   (window_visibility_accounting Platform.linux sampleMainWindow
      [WindowOp.show, WindowOp.setVisible true, WindowOp.onClose, WindowOp.hide,
       WindowOp.show] rfl (by decide)).2.2.trans (by decide),
   by decide⟩

end DISTRHO
